import Mathlib

/-!
The go-rbac password policy and RBAC seeding.

A shallow embedding of `pkg/password/password.go` and `database/migrate.go`.

Go strings are byte sequences; they are embedded as lists of byte values.  The
standard library and third-party packages the code calls (`unicode`,
`golang.org/x/crypto/bcrypt`, `gorm.io/gorm`) are not part of the repository:
the ASCII rows of the `unicode` tables are written out, everything else they
decide is taken as a parameter.
-/

set_option autoImplicit false

namespace Password

/-! ## Go strings and `range` -/

/-- A Go `string` / `[]byte`: its bytes, each a value below 256. -/
abbrev GoString := List Nat

/-- The rune `utf8.RuneError` (U+FFFD) that `range` yields for a byte that
does not start a valid UTF-8 sequence. -/
def runeError : Nat := 0xFFFD

/-- Continuation byte test `locb <= b && b <= hicb`. -/
def isCont (b : Nat) : Bool := decide (0x80 ≤ b ∧ b ≤ 0xBF)

/-- One step of `for _, char := range s` on a non-empty string: the rune read
at the front of `s` and the number of bytes it takes (the runtime's
`decoderune`, with the `c < RuneSelf` fast path of the loop itself). -/
def decoderune : GoString → Nat × Nat
  | [] => (runeError, 1)
  | b0 :: t =>
    if b0 < 0x80 then (b0, 1)
    else if 0xC0 ≤ b0 ∧ b0 < 0xE0 then
      match t with
      | b1 :: _ =>
        if isCont b1 then
          let r := (b0 % 32) * 64 + b1 % 64
          if 0x7F < r then (r, 2) else (runeError, 1)
        else (runeError, 1)
      | _ => (runeError, 1)
    else if 0xE0 ≤ b0 ∧ b0 < 0xF0 then
      match t with
      | b1 :: b2 :: _ =>
        if isCont b1 && isCont b2 then
          let r := (b0 % 16) * 4096 + (b1 % 64) * 64 + b2 % 64
          if 0x7FF < r ∧ ¬ (0xD800 ≤ r ∧ r ≤ 0xDFFF) then (r, 3) else (runeError, 1)
        else (runeError, 1)
      | _ => (runeError, 1)
    else if 0xF0 ≤ b0 ∧ b0 < 0xF8 then
      match t with
      | b1 :: b2 :: b3 :: _ =>
        if isCont b1 && isCont b2 && isCont b3 then
          let r := (b0 % 8) * 262144 + (b1 % 64) * 4096 + (b2 % 64) * 64 + b3 % 64
          if 0xFFFF < r ∧ r ≤ 0x10FFFF then (r, 4) else (runeError, 1)
        else (runeError, 1)
      | _ => (runeError, 1)
    else (runeError, 1)

/-- The runes visited by `range s`, reading at most `fuel` of them. -/
def runesAux : Nat → GoString → List Nat
  | 0, _ => []
  | _ + 1, [] => []
  | fuel + 1, b :: t =>
    (decoderune (b :: t)).1 :: runesAux fuel ((b :: t).drop (decoderune (b :: t)).2)

/-- The runes visited by `for _, char := range s`.  Every step consumes at
least one byte, so `len(s)` steps always reach the end. -/
def runes (s : GoString) : List Nat := runesAux s.length s

/-- The function `utf8.RuneCountInString`: the length of a string in characters. -/
def runeCount (s : GoString) : Nat := (runes s).length

/-! ## The `unicode` predicates -/

/-- The classification of the code points from U+0080 upwards by the `unicode`
package (`Upper`, `Lower`, `Number`, `Punct`, `Symbol` range tables). -/
structure UnicodeTables where
  upper : Nat → Bool
  lower : Nat → Bool
  number : Nat → Bool
  punct : Nat → Bool
  symbol : Nat → Bool

/-- ASCII code points of category P. -/
def asciiPunct : List Nat :=
  [0x21, 0x22, 0x23, 0x25, 0x26, 0x27, 0x28, 0x29, 0x2A, 0x2C, 0x2D, 0x2E, 0x2F,
   0x3A, 0x3B, 0x3F, 0x40, 0x5B, 0x5C, 0x5D, 0x5F, 0x7B, 0x7D]

/-- ASCII code points of category S. -/
def asciiSymbol : List Nat := [0x24, 0x2B, 0x3C, 0x3D, 0x3E, 0x5E, 0x60, 0x7C, 0x7E]

/-- The predicate `unicode.IsUpper`. -/
def IsUpper (T : UnicodeTables) (r : Nat) : Bool :=
  if r < 0x80 then decide (0x41 ≤ r ∧ r ≤ 0x5A) else T.upper r

/-- The predicate `unicode.IsLower`. -/
def IsLower (T : UnicodeTables) (r : Nat) : Bool :=
  if r < 0x80 then decide (0x61 ≤ r ∧ r ≤ 0x7A) else T.lower r

/-- The predicate `unicode.IsNumber`. -/
def IsNumber (T : UnicodeTables) (r : Nat) : Bool :=
  if r < 0x80 then decide (0x30 ≤ r ∧ r ≤ 0x39) else T.number r

/-- The predicate `unicode.IsPunct`. -/
def IsPunct (T : UnicodeTables) (r : Nat) : Bool :=
  if r < 0x80 then decide (r ∈ asciiPunct) else T.punct r

/-- The predicate `unicode.IsSymbol`. -/
def IsSymbol (T : UnicodeTables) (r : Nat) : Bool :=
  if r < 0x80 then decide (r ∈ asciiSymbol) else T.symbol r

/-- The general categories are pairwise disjoint: no code point is in two of
the classes letter-upper, letter-lower, number, punctuation-or-symbol. -/
def UnicodeTables.Exclusive (T : UnicodeTables) : Prop :=
  ∀ r, (T.lower r = true → T.upper r = false) ∧
    (T.number r = true → T.upper r = false ∧ T.lower r = false) ∧
    ((T.punct r || T.symbol r) = true →
      T.upper r = false ∧ T.lower r = false ∧ T.number r = false)

/-- The Latin-1 supplement letters (U+00C0..U+00FF and the micro sign), the
only non-ASCII code points used in the examples below; nothing else above
U+007F is classified by this table. -/
def latin1Letters : UnicodeTables where
  upper := fun r => decide (0xC0 ≤ r ∧ r ≤ 0xDE ∧ r ≠ 0xD7)
  lower := fun r => decide ((0xDF ≤ r ∧ r ≤ 0xFF ∧ r ≠ 0xF7) ∨ r = 0xB5)
  number := fun _ => false
  punct := fun _ => false
  symbol := fun _ => false

/-! ## Errors -/

/-- Errors of `golang.org/x/crypto/bcrypt` as far as the package tells them
apart: the mismatch sentinel, and everything else. -/
inductive BcryptError where
  | ErrMismatchedHashAndPassword
  | ErrHashTooShort
  | other (tag : Nat)
  deriving DecidableEq, Repr

/-- A Go `error` value returned by this package: one of its five sentinels, or
an error of the bcrypt library handed through as it is. -/
inductive Error where
  | ErrPasswordTooShort
  | ErrPasswordTooLong
  | ErrPasswordTooWeak
  | ErrPasswordHashFailed
  | ErrPasswordCompareError
  | library (err : BcryptError)
  deriving DecidableEq, Repr

/-- The errors declared by the package itself (its `var (...)` block). -/
def Error.isSentinel : Error → Bool
  | .library _ => false
  | _ => true

def minPasswordLength : Nat := 8
def maxPasswordLength : Nat := 72
def bcryptCost : Int := 12

/-! ## ValidatePassword -/

/-- The four locals `hasUpper`, `hasLower`, `hasNumber`, `hasSpecial`. -/
structure Flags where
  hasUpper : Bool
  hasLower : Bool
  hasNumber : Bool
  hasSpecial : Bool
  deriving DecidableEq, Repr

/-- The body of the `range` loop: the `switch` takes the first case that holds. -/
def scanRune (T : UnicodeTables) (f : Flags) (char : Nat) : Flags :=
  if IsUpper T char then { f with hasUpper := true }
  else if IsLower T char then { f with hasLower := true }
  else if IsNumber T char then { f with hasNumber := true }
  else if IsPunct T char || IsSymbol T char then { f with hasSpecial := true }
  else f

/-- The flags after the loop over the whole password. -/
def scan (T : UnicodeTables) (password : GoString) : Flags :=
  (runes password).foldl (scanRune T) ⟨false, false, false, false⟩

/-- The function `ValidatePassword`; `none` is the `nil` error. -/
def ValidatePassword (T : UnicodeTables) (password : GoString) : Option Error :=
  if password.length < minPasswordLength then some .ErrPasswordTooShort
  else if password.length > maxPasswordLength then some .ErrPasswordTooLong
  else
    let f := scan T password
    if !(f.hasUpper && f.hasLower && f.hasNumber && f.hasSpecial) then
      some .ErrPasswordTooWeak
    else none

/-! ## bcrypt, HashPassword, ComparePassword -/

/-- The two entry points of `golang.org/x/crypto/bcrypt` the package calls.
`GenerateFromPassword` draws a salt, so it is a parameter of each call site. -/
structure Bcrypt where
  GenerateFromPassword : GoString → Int → Except BcryptError GoString
  CompareHashAndPassword : GoString → GoString → Option BcryptError

/-- The function `HashPassword`: the returned string and error. -/
def HashPassword (T : UnicodeTables) (B : Bcrypt) (password : GoString) :
    GoString × Option Error :=
  match ValidatePassword T password with
  | some err => ([], some err)
  | none =>
    match B.GenerateFromPassword password bcryptCost with
    | .error _ => ([], some .ErrPasswordHashFailed)
    | .ok hashedBytes => (hashedBytes, none)

/-- The function `ComparePassword`. -/
def ComparePassword (B : Bcrypt) (hash password : GoString) : Option Error :=
  match B.CompareHashAndPassword hash password with
  | some err =>
    if err = .ErrMismatchedHashAndPassword then some .ErrPasswordCompareError
    else some (.library err)
  | none => none

/-! ## GenerateRandomPassword -/

/-- The function `SecureRandom`: Go's `/` on `int` truncates toward zero. -/
def SecureRandom (max : Int) : Int := Int.tdiv max 2

/-- Indexing `s[i]`; `none` is the index-out-of-range panic. -/
def index (s : GoString) (i : Int) : Option Nat :=
  if i < 0 then none else s[i.toNat]?

/-- The assignment `s[i] = v`; `none` is the index-out-of-range panic. -/
def assign (s : GoString) (i : Int) (v : Nat) : Option GoString :=
  if 0 ≤ i ∧ i.toNat < s.length then some (s.set i.toNat v) else none

/-- The loop of `ShuffleBytes` from index `i` down to 1:
`j := SecureRandom(i + 1); slice[i], slice[j] = slice[j], slice[i]`. -/
def shuffleFrom : Nat → GoString → Option GoString
  | 0, slice => some slice
  | i + 1, slice => do
    let j := SecureRandom (((i + 1 : Nat) : Int) + 1)
    let vj ← index slice j
    let vi ← index slice ((i + 1 : Nat) : Int)
    let slice ← assign slice ((i + 1 : Nat) : Int) vj
    let slice ← assign slice j vi
    shuffleFrom i slice

/-- The function `ShuffleBytes`, returning the slice it leaves behind. -/
def ShuffleBytes (slice : GoString) : Option GoString :=
  shuffleFrom (slice.length - 1) slice

def upperChars : GoString := "ABCDEFGHIJKLMNOPQRSTUVWXYZ".toList.map Char.toNat
def lowerChars : GoString := "abcdefghijklmnopqrstuvwxyz".toList.map Char.toNat
def numberChars : GoString := "0123456789".toList.map Char.toNat
def specialChars : GoString :=
  [33, 64, 35, 36, 37, 94, 38, 42, 40, 41, 95, 43, 45, 61, 91, 93, 123, 125, 124, 59, 58,
   44, 46, 60, 62, 63]
def allChars : GoString := upperChars ++ lowerChars ++ numberChars ++ specialChars

/-- The loop `for i := 4; i < length; i++` with `k` iterations left, at index `i`. -/
def fillFrom : Nat → Nat → GoString → Option GoString
  | 0, _, password => some password
  | k + 1, i, password => do
    let c ← index allChars (SecureRandom allChars.length)
    let password ← assign password i c
    fillFrom k (i + 1) password

/-- The clamping of `length` at the head of `GenerateRandomPassword`. -/
def clampLength (length : Int) : Int :=
  let length := if length < minPasswordLength then (minPasswordLength : Int) else length
  if length > maxPasswordLength then (maxPasswordLength : Int) else length

/-- The function `GenerateRandomPassword`: the returned string and error;
`none` would be a run-time panic. -/
def GenerateRandomPassword (length : Int) : Option (GoString × Option Error) := do
  let length := clampLength length
  let password : GoString := List.replicate length.toNat 0
  let u ← index upperChars (SecureRandom upperChars.length)
  let password ← assign password 0 u
  let l ← index lowerChars (SecureRandom lowerChars.length)
  let password ← assign password 1 l
  let n ← index numberChars (SecureRandom numberChars.length)
  let password ← assign password 2 n
  let s ← index specialChars (SecureRandom specialChars.length)
  let password ← assign password 3 s
  let password ← fillFrom (length.toNat - 4) 4 password
  let password ← ShuffleBytes password
  pure (password, none)

/-! ## Example data -/

/-- The bytes of `"TestPass123!"`, the valid password of the package's tests. -/
def testPass : GoString := [84, 101, 115, 116, 80, 97, 115, 115, 49, 50, 51, 33]

/-- The bytes of `"testpass123!"`, the tests' password without an uppercase letter. -/
def noUpperPass : GoString := [116, 101, 115, 116, 112, 97, 115, 115, 49, 50, 51, 33]

/-- The bytes of `"Test1!"`, the tests' too-short password. -/
def shortPass : GoString := [84, 101, 115, 116, 49, 33]

/-- The bytes of `"Aa1!éé"`: six characters, eight bytes (`é` is `0xC3 0xA9`). -/
def shortAccented : GoString := [65, 97, 49, 33, 195, 169, 195, 169]

/-- The bytes of `"Aa1!"` followed by 35 times `é`: 39 characters, 74 bytes. -/
def longAccented : GoString := [65, 97, 49, 33] ++ (List.replicate 35 [195, 169]).flatten

/-- The rows of the `unicode` tables for the Latin-1 supplement, U+0080 to
U+00FF, and for U+FFFD, which is a symbol; no other code point above U+007F is
classified by this table. -/
def latin1Table : UnicodeTables where
  upper := fun r => decide (0xC0 ≤ r ∧ r ≤ 0xDE ∧ r ≠ 0xD7)
  lower := fun r => decide ((0xDF ≤ r ∧ r ≤ 0xFF ∧ r ≠ 0xF7) ∨ r = 0xB5)
  number := fun r => decide (r ∈ [0xB2, 0xB3, 0xB9, 0xBC, 0xBD, 0xBE])
  punct := fun r => decide (r ∈ [0xA1, 0xA7, 0xAB, 0xB6, 0xB7, 0xBB, 0xBF])
  symbol := fun r =>
    decide (r ∈ [0xA2, 0xA3, 0xA4, 0xA5, 0xA6, 0xA8, 0xA9, 0xAC, 0xAE, 0xAF, 0xB0, 0xB1,
      0xB4, 0xB8, 0xD7, 0xF7, 0xFFFD])

/-- The predicate `unicode.IsDigit` on the code points up to U+00FF: the only
decimal digits there are `0` to `9`. -/
def isLatin1Digit (r : Nat) : Bool := decide (0x30 ≤ r ∧ r ≤ 0x39)

/-- The bytes of `"Aa!aaaa½"`: eight characters, nine bytes (`½`, U+00BD, is
`0xC2 0xBD`); it holds no digit, and the number `½`. -/
def halfPass : GoString := [65, 97, 33, 97, 97, 97, 97, 194, 189]

/-- The bytes of `"invalid_hash"`, the tests' unparseable hash. -/
def invalidHash : GoString := [105, 110, 118, 97, 108, 105, 100, 95, 104, 97, 115, 104]

/-- A bcrypt whose comparison, like the library's `newFromHash`, turns down a
hash of fewer than `minHashSize = 59` bytes with `ErrHashTooShort` before it
looks at the password; longer hashes are reported as mismatches and nothing is
ever generated. -/
def shortHashBcrypt : Bcrypt where
  GenerateFromPassword := fun _ _ => .error (.other 0)
  CompareHashAndPassword := fun hash _ =>
    if hash.length < 59 then some .ErrHashTooShort else some .ErrMismatchedHashAndPassword

end Password

namespace Database

open Password (GoString UnicodeTables Bcrypt)

/-! ## The models -/

/-- A `uuid.UUID`; `uuid.Nil` is 0. -/
abbrev UUID := Nat

/-- The struct `models.Permission`: the `Base` fields `ID` and `DeletedAt`
(set or not), and the columns.  The timestamps play no part in the seeding. -/
structure Permission where
  ID : UUID
  deleted : Bool
  Name : String
  Description : String
  deriving DecidableEq, Repr

/-- The struct `models.Role`. -/
structure Role where
  ID : UUID
  deleted : Bool
  Name : String
  Description : String
  deriving DecidableEq, Repr

/-- The struct `models.User`. -/
structure User where
  ID : UUID
  deleted : Bool
  Email : String
  Password : GoString
  FirstName : String
  LastName : String
  Active : Bool
  deriving DecidableEq, Repr

/-- The five tables behind a `*gorm.DB`.  A `role_permissions` row is
`(role_id, permission_id)`, a `user_roles` row is `(user_id, role_id)`. -/
structure Store where
  permissions : List Permission
  roles : List Role
  users : List User
  role_permissions : List (UUID × UUID)
  user_roles : List (UUID × UUID)
  deriving DecidableEq, Repr

/-- The store with no rows. -/
def Store.empty : Store := ⟨[], [], [], [], []⟩

/-- The permissions a role holds: the rows that are not soft-deleted and are
joined to it in `role_permissions`. -/
def Store.permissionsOf (s : Store) (role : Role) : List Permission :=
  s.permissions.filter (fun p => !p.deleted && s.role_permissions.contains (role.ID, p.ID))

/-- The roles a user holds. -/
def Store.rolesOf (s : Store) (user : User) : List Role :=
  s.roles.filter (fun r => !r.deleted && s.user_roles.contains (user.ID, r.ID))

/-! ## What the database does during one call -/

/-- The three tables with a primary key. -/
inductive Table where
  | permissions
  | roles
  | users
  deriving DecidableEq, Repr

/-- An error of the database other than `gorm.ErrRecordNotFound`. -/
inductive DBError where
  | failure
  | duplicateKey
  deriving DecidableEq, Repr

/-- The outcome of everything outside the program during one call of
`seedInitialData`: which statements the database fails (for a reason other
than not-found), and the identifiers `uuid.New()` hands out.  Each statement of
one call is named by its table and the key it is about. -/
structure Env where
  beginFails : Bool
  commitFails : Bool
  lookupFails : Table → String → Bool
  createFails : Table → String → Bool
  findFails : Bool
  replaceFails : Table → Bool
  newUUID : Table → String → UUID

/-- The errors `seedInitialData` returns, one for each `fmt.Errorf` site, and
the error of `db.Transaction` itself. -/
inductive SeedError where
  | hashAdminPassword (err : Password.Error)
  | checkPermission (name : String) (err : DBError)
  | createPermission (name : String) (err : DBError)
  | checkAdminRole (err : DBError)
  | createAdminRole (err : DBError)
  | checkUserRole (err : DBError)
  | createUserRole (err : DBError)
  | fetchPermissions (err : DBError)
  | assignPermissions (err : DBError)
  | checkAdminUser (err : DBError)
  | createAdminUser (err : DBError)
  | assignAdminRole (err : DBError)
  | transaction (err : DBError)
  deriving DecidableEq, Repr

/-! ## The gorm statements -/

/-- The query `tx.Where("name = ?", name).First(&perm)`: soft-deleted rows are
not seen; `ok none` is `gorm.ErrRecordNotFound`. -/
def firstPermission (env : Env) (tx : Store) (name : String) :
    Except DBError (Option Permission) :=
  if env.lookupFails .permissions name then .error .failure
  else .ok (tx.permissions.find? (fun p => !p.deleted && p.Name == name))

/-- The query `tx.Where("name = ?", name).First(&role)`. -/
def firstRole (env : Env) (tx : Store) (name : String) : Except DBError (Option Role) :=
  if env.lookupFails .roles name then .error .failure
  else .ok (tx.roles.find? (fun r => !r.deleted && r.Name == name))

/-- The query `tx.Where("email = ?", email).First(&user)`. -/
def firstUser (env : Env) (tx : Store) (email : String) : Except DBError (Option User) :=
  if env.lookupFails .users email then .error .failure
  else .ok (tx.users.find? (fun u => !u.deleted && u.Email == email))

/-- The hook `Base.BeforeCreate` on a permission: a nil `ID` is replaced by
`uuid.New()`. -/
def Permission.BeforeCreate (env : Env) (perm : Permission) : Permission :=
  if perm.ID = 0 then { perm with ID := env.newUUID .permissions perm.Name } else perm

/-- The hook `Base.BeforeCreate` on a role. -/
def Role.BeforeCreate (env : Env) (role : Role) : Role :=
  if role.ID = 0 then { role with ID := env.newUUID .roles role.Name } else role

/-- The hook `Base.BeforeCreate` on a user. -/
def User.BeforeCreate (env : Env) (user : User) : User :=
  if user.ID = 0 then { user with ID := env.newUUID .users user.Email } else user

/-- The statement `tx.Create(&perm)`: the hook runs, and the insert is refused
when the primary key or the unique `name` is taken,
by a soft-deleted row too.  Returns the store and the row as written. -/
def createPermission (env : Env) (tx : Store) (perm : Permission) :
    Except DBError (Store × Permission) :=
  if env.createFails .permissions perm.Name then .error .failure
  else
    let perm := perm.BeforeCreate env
    if tx.permissions.any (fun p => p.ID == perm.ID || p.Name == perm.Name) then
      .error .duplicateKey
    else .ok ({ tx with permissions := tx.permissions ++ [perm] }, perm)

/-- The statement `tx.Create(&role)`. -/
def createRole (env : Env) (tx : Store) (role : Role) : Except DBError (Store × Role) :=
  if env.createFails .roles role.Name then .error .failure
  else
    let role := role.BeforeCreate env
    if tx.roles.any (fun r => r.ID == role.ID || r.Name == role.Name) then
      .error .duplicateKey
    else .ok ({ tx with roles := tx.roles ++ [role] }, role)

/-- The statement `tx.Create(&user)`. -/
def createUser (env : Env) (tx : Store) (user : User) : Except DBError (Store × User) :=
  if env.createFails .users user.Email then .error .failure
  else
    let user := user.BeforeCreate env
    if tx.users.any (fun u => u.ID == user.ID || u.Email == user.Email) then
      .error .duplicateKey
    else .ok ({ tx with users := tx.users ++ [user] }, user)

/-- The query `tx.Find(&allPermissions)`: every permission not soft-deleted. -/
def findPermissions (env : Env) (tx : Store) : Except DBError (List Permission) :=
  if env.findFails then .error .failure
  else .ok (tx.permissions.filter (fun p => !p.deleted))

/-- The statement `tx.Model(&role).Association("Permissions").Replace(perms)`:
afterwards the join rows of the role are those to `perms` and no others. -/
def replacePermissions (env : Env) (tx : Store) (role : Role) (perms : List Permission) :
    Except DBError Store :=
  if env.replaceFails .roles then .error .failure
  else .ok { tx with
    role_permissions :=
      tx.role_permissions.filter (fun rp => rp.1 != role.ID) ++
        perms.map (fun p => (role.ID, p.ID)) }

/-- The statement `tx.Model(&user).Association("Roles").Replace(&role)`. -/
def replaceRoles (env : Env) (tx : Store) (user : User) (role : Role) :
    Except DBError Store :=
  if env.replaceFails .users then .error .failure
  else .ok { tx with
    user_roles := tx.user_roles.filter (fun ur => ur.1 != user.ID) ++ [(user.ID, role.ID)] }

/-- The method `db.Transaction(fc)`: `fc` runs on the transaction; an error
from it rolls every write back and is returned, otherwise the writes are
committed. -/
def Transaction (env : Env) (fc : Store → Except SeedError Store) (db : Store) :
    Store × Option SeedError :=
  if env.beginFails then (db, some (.transaction .failure))
  else
    match fc db with
    | .error err => (db, some err)
    | .ok tx => if env.commitFails then (db, some (.transaction .failure)) else (tx, none)

/-! ## seedInitialData -/

/-- The slice `permissions`. -/
def permissions : List Permission :=
  [ ⟨0, false, "user:create", "Can create users"⟩,
    ⟨0, false, "user:read", "Can read users"⟩,
    ⟨0, false, "user:update", "Can update users"⟩,
    ⟨0, false, "user:delete", "Can delete users"⟩,
    ⟨0, false, "role:create", "Can create roles"⟩,
    ⟨0, false, "role:read", "Can read roles"⟩,
    ⟨0, false, "role:update", "Can update roles"⟩,
    ⟨0, false, "role:delete", "Can delete roles"⟩,
    ⟨0, false, "permission:read", "Can read permissions"⟩ ]

/-- The names of the permission catalog. -/
def catalog : List String := permissions.map (fun p => p.Name)

def adminRole : Role := ⟨0, false, "admin", "System administrator with full access"⟩

def userRole : Role := ⟨0, false, "user", "Regular user with limited access"⟩

/-- The bytes of `"Admin@123!"`. -/
def defaultAdminPassword : GoString := [65, 100, 109, 105, 110, 64, 49, 50, 51, 33]

def adminEmail : String := "admin@example.com"

def adminUser (hashedPassword : GoString) : User :=
  ⟨0, false, adminEmail, hashedPassword, "Admin", "User", true⟩

/-- The loop `for _, perm := range permissions` of the transaction. -/
def seedPermissions (env : Env) : List Permission → Store → Except SeedError Store
  | [], tx => .ok tx
  | perm :: rest, tx =>
    match firstPermission env tx perm.Name with
    | .error err => .error (.checkPermission perm.Name err)
    | .ok (some _) => seedPermissions env rest tx
    | .ok none =>
      match createPermission env tx perm with
      | .error err => .error (.createPermission perm.Name err)
      | .ok (tx, _) => seedPermissions env rest tx

/-- The block "Create admin role if it doesn't exist": the store and
`existingAdminRole`. -/
def seedAdminRole (env : Env) (tx : Store) : Except SeedError (Store × Role) :=
  match firstRole env tx adminRole.Name with
  | .error err => .error (.checkAdminRole err)
  | .ok (some existingAdminRole) => .ok (tx, existingAdminRole)
  | .ok none =>
    match createRole env tx adminRole with
    | .error err => .error (.createAdminRole err)
    | .ok (tx, adminRole) => .ok (tx, adminRole)

/-- The block "Create user role if it doesn't exist". -/
def seedUserRole (env : Env) (tx : Store) : Except SeedError Store :=
  match firstRole env tx userRole.Name with
  | .error err => .error (.checkUserRole err)
  | .ok (some _) => .ok tx
  | .ok none =>
    match createRole env tx userRole with
    | .error err => .error (.createUserRole err)
    | .ok (tx, _) => .ok tx

/-- The block "Assign all permissions to admin role". -/
def seedAdminPermissions (env : Env) (tx : Store) (existingAdminRole : Role) :
    Except SeedError Store :=
  match findPermissions env tx with
  | .error err => .error (.fetchPermissions err)
  | .ok allPermissions =>
    match replacePermissions env tx existingAdminRole allPermissions with
    | .error err => .error (.assignPermissions err)
    | .ok tx => .ok tx

/-- The block "Create admin user if it doesn't exist": the store and
`existingAdminUser`. -/
def seedAdminUser (env : Env) (tx : Store) (adminUser : User) :
    Except SeedError (Store × User) :=
  match firstUser env tx adminUser.Email with
  | .error err => .error (.checkAdminUser err)
  | .ok (some existingAdminUser) => .ok (tx, existingAdminUser)
  | .ok none =>
    match createUser env tx adminUser with
    | .error err => .error (.createAdminUser err)
    | .ok (tx, adminUser) => .ok (tx, adminUser)

/-- The block "Assign admin role to admin user". -/
def seedAdminUserRole (env : Env) (tx : Store) (existingAdminUser : User)
    (existingAdminRole : Role) : Except SeedError Store :=
  match replaceRoles env tx existingAdminUser existingAdminRole with
  | .error err => .error (.assignAdminRole err)
  | .ok tx => .ok tx

/-- The function passed to `db.Transaction`. -/
def seedTransaction (env : Env) (adminUser : User) (tx : Store) : Except SeedError Store :=
  match seedPermissions env permissions tx with
  | .error err => .error err
  | .ok tx =>
    match seedAdminRole env tx with
    | .error err => .error err
    | .ok (tx, existingAdminRole) =>
      match seedUserRole env tx with
      | .error err => .error err
      | .ok tx =>
        match seedAdminPermissions env tx existingAdminRole with
        | .error err => .error err
        | .ok tx =>
          match seedAdminUser env tx adminUser with
          | .error err => .error err
          | .ok (tx, existingAdminUser) =>
            seedAdminUserRole env tx existingAdminUser existingAdminRole

/-- The function `seedInitialData`: the store it leaves and the error it
returns.  The admin password is hashed before the transaction begins. -/
def seedInitialData (T : UnicodeTables) (B : Bcrypt) (env : Env) (db : Store) :
    Store × Option SeedError :=
  match Password.HashPassword T B defaultAdminPassword with
  | (_, some err) => (db, some (.hashAdminPassword err))
  | (hashedPassword, none) => Transaction env (seedTransaction env (adminUser hashedPassword)) db

/-! ## Ways to speak about a call -/

/-- The role `First` finds under the name `admin`. -/
def Store.findAdminRole (s : Store) : Option Role :=
  s.roles.find? (fun r => !r.deleted && r.Name == "admin")

/-- The user `First` finds under the admin email. -/
def Store.findAdminUser (s : Store) : Option User :=
  s.users.find? (fun u => !u.deleted && u.Email == adminEmail)

/-- Every statement of the call goes through. -/
def Env.quiet (env : Env) : Prop :=
  env.beginFails = false ∧ env.commitFails = false ∧
    (∀ t key, env.lookupFails t key = false) ∧ (∀ t key, env.createFails t key = false) ∧
    env.findFails = false ∧ ∀ t, env.replaceFails t = false

/-- A database on which every statement goes through, with identifiers 1 to 9
for the catalog permissions in order, 11 and 12 for the roles and 13 for the
user; any other row would get 14. -/
def quietEnv : Env where
  beginFails := false
  commitFails := false
  lookupFails := fun _ _ => false
  createFails := fun _ _ => false
  findFails := false
  replaceFails := fun _ => false
  newUUID := fun t key =>
    match t with
    | .permissions => if key ∈ catalog then catalog.indexOf key + 1 else 14
    | .roles => if key = "admin" then 11 else if key = "user" then 12 else 14
    | .users => if key = adminEmail then 13 else 14

/-- A bcrypt that answers every `GenerateFromPassword` with the same 60 bytes,
`$2a$12$` followed by 53 dots. -/
def fixedBcrypt : Bcrypt where
  GenerateFromPassword := fun _ _ => .ok ([36, 50, 97, 36, 49, 50, 36] ++ List.replicate 53 46)
  CompareHashAndPassword := fun _ _ => some .ErrMismatchedHashAndPassword

/-- The store after one seeding of the empty store on `quietEnv`. -/
def seededStore : Store :=
  (seedInitialData Password.latin1Letters fixedBcrypt quietEnv Store.empty).1

/-- A store that holds one permission outside the catalog and nothing else. -/
def extraPermissionStore : Store :=
  { Store.empty with permissions := [⟨100, false, "billing:read", "Can read invoices"⟩] }

end Database
namespace Password

/-! ## Lemmas on the scan -/

theorem foldl_scanRune_hasUpper (T : UnicodeTables) (rs : List Nat) (f : Flags) :
    (rs.foldl (scanRune T) f).hasUpper = (f.hasUpper || rs.any (IsUpper T)) := by
  induction rs generalizing f with
  | nil => simp
  | cons r rs ih =>
    rw [List.foldl_cons, ih]
    unfold scanRune
    by_cases h1 : IsUpper T r = true
    · simp [h1]
    · by_cases h2 : IsLower T r = true <;> by_cases h3 : IsNumber T r = true <;>
        by_cases h4 : (IsPunct T r || IsSymbol T r) = true <;> simp [h1, h2, h3, h4]

theorem foldl_scanRune_hasLower (T : UnicodeTables) (rs : List Nat) (f : Flags) :
    (rs.foldl (scanRune T) f).hasLower =
      (f.hasLower || rs.any (fun r => !IsUpper T r && IsLower T r)) := by
  induction rs generalizing f with
  | nil => simp
  | cons r rs ih =>
    rw [List.foldl_cons, ih]
    unfold scanRune
    by_cases h1 : IsUpper T r = true
    · simp [h1]
    · by_cases h2 : IsLower T r = true <;> by_cases h3 : IsNumber T r = true <;>
        by_cases h4 : (IsPunct T r || IsSymbol T r) = true <;> simp [h1, h2, h3, h4]

theorem foldl_scanRune_hasNumber (T : UnicodeTables) (rs : List Nat) (f : Flags) :
    (rs.foldl (scanRune T) f).hasNumber =
      (f.hasNumber || rs.any (fun r => !IsUpper T r && !IsLower T r && IsNumber T r)) := by
  induction rs generalizing f with
  | nil => simp
  | cons r rs ih =>
    rw [List.foldl_cons, ih]
    unfold scanRune
    by_cases h1 : IsUpper T r = true
    · simp [h1]
    · by_cases h2 : IsLower T r = true <;> by_cases h3 : IsNumber T r = true <;>
        by_cases h4 : (IsPunct T r || IsSymbol T r) = true <;> simp [h1, h2, h3, h4]

theorem foldl_scanRune_hasSpecial (T : UnicodeTables) (rs : List Nat) (f : Flags) :
    (rs.foldl (scanRune T) f).hasSpecial =
      (f.hasSpecial || rs.any (fun r => !IsUpper T r && !IsLower T r && !IsNumber T r &&
        (IsPunct T r || IsSymbol T r))) := by
  induction rs generalizing f with
  | nil => simp
  | cons r rs ih =>
    rw [List.foldl_cons, ih]
    unfold scanRune
    by_cases h1 : IsUpper T r = true
    · simp [h1]
    · by_cases h2 : IsLower T r = true <;> by_cases h3 : IsNumber T r = true <;>
        by_cases h4 : (IsPunct T r || IsSymbol T r) = true <;> simp [h1, h2, h3, h4]

/-! ## Lemmas on the `unicode` predicates -/

theorem not_upper_of_lower (T : UnicodeTables) (hT : T.Exclusive) (r : Nat)
    (h : IsLower T r = true) : IsUpper T r = false := by
  unfold IsLower at h
  unfold IsUpper
  by_cases hr : r < 0x80
  · simp only [hr, if_true, decide_eq_true_eq] at h
    simp only [hr, if_true, decide_eq_false_iff_not]
    omega
  · simp only [hr, if_false] at h
    simp only [hr, if_false]
    exact (hT r).1 h

theorem not_letter_of_number (T : UnicodeTables) (hT : T.Exclusive) (r : Nat)
    (h : IsNumber T r = true) : IsUpper T r = false ∧ IsLower T r = false := by
  unfold IsNumber at h
  unfold IsUpper IsLower
  by_cases hr : r < 0x80
  · simp only [hr, if_true, decide_eq_true_eq] at h
    simp only [hr, if_true, decide_eq_false_iff_not]
    omega
  · simp only [hr, if_false] at h
    simp only [hr, if_false]
    exact (hT r).2.1 h

theorem not_alnum_of_special (T : UnicodeTables) (hT : T.Exclusive) (r : Nat)
    (h : (IsPunct T r || IsSymbol T r) = true) :
    IsUpper T r = false ∧ IsLower T r = false ∧ IsNumber T r = false := by
  unfold IsPunct IsSymbol at h
  unfold IsUpper IsLower IsNumber
  by_cases hr : r < 0x80
  · simp only [hr, if_true, Bool.or_eq_true, decide_eq_true_eq, asciiPunct, asciiSymbol,
      List.mem_cons, List.mem_singleton, List.not_mem_nil, or_false] at h
    simp only [hr, if_true, decide_eq_false_iff_not]
    omega
  · simp only [hr, if_false] at h
    simp only [hr, if_false]
    exact (hT r).2.2 h

theorem latin1Letters_exclusive : latin1Letters.Exclusive := by
  intro r
  simp only [latin1Letters, decide_eq_true_eq, decide_eq_false_iff_not, Bool.or_self]
  refine ⟨?_, ?_, ?_⟩
  · intro h; omega
  · intro h; cases h
  · intro h; cases h

/-! ## Lemmas on `ValidatePassword` -/

/-- A password is accepted exactly when its byte length is within the bounds
and all four flags come up. -/
theorem ValidatePassword_eq_none_iff (T : UnicodeTables) (p : GoString) :
    ValidatePassword T p = none ↔
      (8 ≤ p.length ∧ p.length ≤ 72 ∧ (scan T p).hasUpper = true ∧ (scan T p).hasLower = true ∧
        (scan T p).hasNumber = true ∧ (scan T p).hasSpecial = true) := by
  unfold ValidatePassword minPasswordLength maxPasswordLength
  by_cases h1 : p.length < 8
  · simp [h1]
  · by_cases h2 : p.length > 72
    · simp [h1, h2]
    · simp only [h1, h2, if_false]
      have h8 : 8 ≤ p.length := by omega
      have h72 : p.length ≤ 72 := by omega
      cases (scan T p).hasUpper <;> cases (scan T p).hasLower <;>
        cases (scan T p).hasNumber <;> cases (scan T p).hasSpecial <;> simp [h8, h72]

/-- Byte length below 8 is reported as too short whatever the bytes are. -/
theorem ValidatePassword_short (T : UnicodeTables) (p : GoString) (h : p.length < 8) :
    ValidatePassword T p = some Error.ErrPasswordTooShort := by
  simp [ValidatePassword, minPasswordLength, h]

/-- The only errors of `ValidatePassword` are the three validation sentinels. -/
theorem ValidatePassword_errors (T : UnicodeTables) (p : GoString) (e : Error)
    (h : ValidatePassword T p = some e) :
    e = .ErrPasswordTooShort ∨ e = .ErrPasswordTooLong ∨ e = .ErrPasswordTooWeak := by
  unfold ValidatePassword at h
  split at h
  · left; exact (Option.some.inj h).symm
  · split at h
    · right; left; exact (Option.some.inj h).symm
    · simp only at h
      split at h
      · right; right; exact (Option.some.inj h).symm
      · cases h

theorem scan_hasUpper (T : UnicodeTables) (p : GoString) :
    (scan T p).hasUpper = (runes p).any (IsUpper T) := by
  simp [scan, foldl_scanRune_hasUpper]

theorem scan_hasLower (T : UnicodeTables) (p : GoString) :
    (scan T p).hasLower = (runes p).any (fun r => !IsUpper T r && IsLower T r) := by
  simp [scan, foldl_scanRune_hasLower]

theorem scan_hasNumber (T : UnicodeTables) (p : GoString) :
    (scan T p).hasNumber =
      (runes p).any (fun r => !IsUpper T r && !IsLower T r && IsNumber T r) := by
  simp [scan, foldl_scanRune_hasNumber]

theorem scan_hasSpecial (T : UnicodeTables) (p : GoString) :
    (scan T p).hasSpecial =
      (runes p).any (fun r => !IsUpper T r && !IsLower T r && !IsNumber T r &&
        (IsPunct T r || IsSymbol T r)) := by
  simp [scan, foldl_scanRune_hasSpecial]

/-! ## Runes of ASCII strings -/

theorem runesAux_ascii (s : GoString) (h : ∀ b ∈ s, b < 0x80) (fuel : Nat)
    (hf : s.length ≤ fuel) : runesAux fuel s = s := by
  induction s generalizing fuel with
  | nil => cases fuel <;> rfl
  | cons b t ih =>
    cases fuel with
    | zero => simp at hf
    | succ fuel =>
      have hb : b < 0x80 := h b (List.mem_cons_self _ _)
      have hd : decoderune (b :: t) = (b, 1) := by simp [decoderune, hb]
      simp only [runesAux, hd, List.drop_succ_cons, List.drop_zero]
      rw [ih (fun x hx => h x (List.mem_cons_of_mem _ hx)) fuel
        (by simpa using hf)]

theorem runes_ascii (s : GoString) (h : ∀ b ∈ s, b < 0x80) : runes s = s :=
  runesAux_ascii s h s.length (le_refl _)

/-- Every step of `range` consumes at least one byte. -/
theorem decoderune_width_pos (s : GoString) : 1 ≤ (decoderune s).2 := by
  unfold decoderune
  split
  · exact le_refl _
  · split
    · exact le_refl _
    · split
      · split
        · split
          · simp only
            split <;> simp
          · simp
        · simp
      · split
        · split
          · split
            · simp only
              split <;> simp
            · simp
          · simp
        · split
          · split
            · split
              · simp only
                split <;> simp
              · simp
            · simp
          · simp

theorem runesAux_length_le (fuel : Nat) (s : GoString) :
    (runesAux fuel s).length ≤ s.length := by
  induction fuel generalizing s with
  | zero => simp [runesAux]
  | succ fuel ih =>
    cases s with
    | nil => simp [runesAux]
    | cons b t =>
      have hw := decoderune_width_pos (b :: t)
      have hrec := ih ((b :: t).drop (decoderune (b :: t)).2)
      rw [List.length_drop] at hrec
      simp only [runesAux, List.length_cons] at hrec ⊢
      omega

/-- A string has at most as many characters as bytes. -/
theorem runeCount_le_length (s : GoString) : runeCount s ≤ s.length :=
  runesAux_length_le s.length s

/-! ## Lemmas on the generator -/

theorem SecureRandom_natCast (n : Nat) : SecureRandom (n : Int) = ((n / 2 : Nat) : Int) := by
  unfold SecureRandom
  exact (Int.ofNat_tdiv n 2).symm

theorem index_natCast (s : GoString) (i : Nat) : index s (i : Int) = s[i]? := by
  simp [index]

theorem assign_natCast (s : GoString) (i : Nat) (v : Nat) (h : i < s.length) :
    assign s (i : Int) v = some (s.set i v) := by
  simp [assign, h]

/-- Exchanging two entries keeps the elements of a slice. -/
theorem mem_swap (s : GoString) (a b : Nat) (ha : a < s.length) (hb : b < s.length)
    (x : Nat) : x ∈ (s.set a s[b]).set b s[a] ↔ x ∈ s := by
  constructor
  · intro hx
    obtain ⟨k, hk, rfl⟩ := List.mem_iff_getElem.1 hx
    rw [List.getElem_set]
    split
    · exact List.getElem_mem _
    · rw [List.getElem_set]
      split
      · exact List.getElem_mem _
      · exact List.getElem_mem _
  · intro hx
    obtain ⟨k, hk, rfl⟩ := List.mem_iff_getElem.1 hx
    have hlen : ((s.set a s[b]).set b s[a]).length = s.length := by simp
    by_cases hka : k = a
    · subst hka
      refine List.mem_iff_getElem.2 ⟨b, by omega, ?_⟩
      simp
    · by_cases hkb : k = b
      · subst hkb
        refine List.mem_iff_getElem.2 ⟨a, by omega, ?_⟩
        rw [List.getElem_set]
        split
        · rename_i h; subst h; rfl
        · simp
      · refine List.mem_iff_getElem.2 ⟨k, by omega, ?_⟩
        rw [List.getElem_set, if_neg (Ne.symm hkb), List.getElem_set, if_neg (Ne.symm hka)]

/-- The shuffle loop never panics, keeps the length and keeps the elements. -/
theorem shuffleFrom_spec (i : Nat) (s : GoString) (hi : i < s.length) :
    ∃ s', shuffleFrom i s = some s' ∧ s'.length = s.length ∧ ∀ x, x ∈ s' ↔ x ∈ s := by
  induction i generalizing s with
  | zero => exact ⟨s, rfl, rfl, fun _ => Iff.rfl⟩
  | succ i ih =>
    have hj : (i + 1 + 1) / 2 < s.length := by omega
    have hcast : ((i + 1 : Nat) : Int) + 1 = ((i + 1 + 1 : Nat) : Int) := by push_cast; ring
    obtain ⟨s', h1, h2, h3⟩ := ih ((s.set (i + 1) s[(i + 1 + 1) / 2]).set ((i + 1 + 1) / 2) s[i + 1])
      (by simp; omega)
    refine ⟨s', ?_, ?_, ?_⟩
    · rw [shuffleFrom, hcast, SecureRandom_natCast, index_natCast, index_natCast,
        List.getElem?_eq_getElem hj, List.getElem?_eq_getElem hi]
      simp only [Option.bind_eq_bind, Option.some_bind]
      rw [assign_natCast _ _ _ hi]
      simp only [Option.some_bind]
      rw [assign_natCast _ _ _ (by simpa using hj)]
      simpa using h1
    · simpa using h2
    · intro x
      rw [h3, mem_swap s (i + 1) ((i + 1 + 1) / 2) hi hj]

theorem ShuffleBytes_spec (s : GoString) (hs : 0 < s.length) :
    ∃ s', ShuffleBytes s = some s' ∧ s'.length = s.length ∧ ∀ x, x ∈ s' ↔ x ∈ s :=
  shuffleFrom_spec (s.length - 1) s (by omega)

/-- The fill loop writes `allChars[44]`, the byte `s`, into every remaining cell. -/
theorem fillFrom_spec (k : Nat) (pre : GoString) :
    fillFrom k pre.length (pre ++ List.replicate k 0) = some (pre ++ List.replicate k 115) := by
  induction k generalizing pre with
  | zero => simp [fillFrom]
  | succ k ih =>
    have hc : index allChars (SecureRandom allChars.length) = some 115 := by decide
    have ha : assign (pre ++ List.replicate (k + 1) 0) (pre.length : Int) 115 =
        some ((pre ++ [115]) ++ List.replicate k 0) := by
      rw [assign_natCast _ _ _ (by simp)]
      simp [List.replicate_succ, List.set_append]
    rw [fillFrom, hc]
    simp only [Option.bind_eq_bind, Option.some_bind]
    rw [ha]
    simp only [Option.some_bind]
    have := ih (pre ++ [115])
    simp only [List.length_append, List.length_singleton] at this
    rw [this]
    simp [List.replicate_succ]

/-! ## The claims on the password policy -/

/-- C1 (as amended): for every password of at least 8 characters and at most
72 bytes (the upper bound is on `len`, the byte count bcrypt limits) which
contains at least one uppercase letter, one lowercase letter, one number and
one punctuation or symbol character, `ValidatePassword` returns no error. -/
theorem ValidatePassword_accepts (T : UnicodeTables) (hT : T.Exclusive) (p : GoString)
    (hmin : 8 ≤ runeCount p) (hmax : p.length ≤ 72)
    (hU : ∃ r ∈ runes p, IsUpper T r = true)
    (hL : ∃ r ∈ runes p, IsLower T r = true)
    (hN : ∃ r ∈ runes p, IsNumber T r = true)
    (hS : ∃ r ∈ runes p, IsPunct T r = true ∨ IsSymbol T r = true) :
    ValidatePassword T p = none := by
  rw [ValidatePassword_eq_none_iff, scan_hasUpper, scan_hasLower, scan_hasNumber,
    scan_hasSpecial]
  refine ⟨le_trans hmin (runeCount_le_length p), hmax, ?_, ?_, ?_, ?_⟩
  · exact List.any_eq_true.2 hU
  · obtain ⟨r, hr, h⟩ := hL
    exact List.any_eq_true.2 ⟨r, hr, by simp [h, not_upper_of_lower T hT r h]⟩
  · obtain ⟨r, hr, h⟩ := hN
    obtain ⟨h1, h2⟩ := not_letter_of_number T hT r h
    exact List.any_eq_true.2 ⟨r, hr, by simp [h, h1, h2]⟩
  · obtain ⟨r, hr, h⟩ := hS
    have h' : (IsPunct T r || IsSymbol T r) = true := by simpa using h
    obtain ⟨h1, h2, h3⟩ := not_alnum_of_special T hT r h'
    exact List.any_eq_true.2 ⟨r, hr, by simp [h', h1, h2, h3]⟩

/-- C1, witness: `"TestPass123!"` is accepted. -/
theorem ValidatePassword_accepts_witness :
    latin1Letters.Exclusive ∧ 8 ≤ runeCount testPass ∧ testPass.length ≤ 72 ∧
      (∃ r ∈ runes testPass, IsUpper latin1Letters r = true) ∧
      (∃ r ∈ runes testPass, IsLower latin1Letters r = true) ∧
      (∃ r ∈ runes testPass, IsNumber latin1Letters r = true) ∧
      (∃ r ∈ runes testPass,
        IsPunct latin1Letters r = true ∨ IsSymbol latin1Letters r = true) ∧
      ValidatePassword latin1Letters testPass = none :=
  ⟨latin1Letters_exclusive, by decide, by decide, ⟨84, by decide, by decide⟩,
    ⟨101, by decide, by decide⟩, ⟨49, by decide, by decide⟩, ⟨33, by decide, by decide⟩,
    ValidatePassword_accepts latin1Letters latin1Letters_exclusive testPass (by decide)
      (by decide) ⟨84, by decide, by decide⟩ ⟨101, by decide, by decide⟩
      ⟨49, by decide, by decide⟩ ⟨33, by decide, by decide⟩⟩

/-- C1, counterexample: `"Aa1!"` followed by 35 times `é` has 39 characters,
between 8 and 72, and one character of each of the four kinds, yet it is
turned down as too long, because it has 74 bytes. -/
theorem ValidatePassword_rejects_longAccented :
    8 ≤ runeCount longAccented ∧ runeCount longAccented ≤ 72 ∧
      (∃ r ∈ runes longAccented, IsUpper latin1Letters r = true) ∧
      (∃ r ∈ runes longAccented, IsLower latin1Letters r = true) ∧
      (∃ r ∈ runes longAccented, IsNumber latin1Letters r = true) ∧
      (∃ r ∈ runes longAccented,
        IsPunct latin1Letters r = true ∨ IsSymbol latin1Letters r = true) ∧
      ValidatePassword latin1Letters longAccented = some Error.ErrPasswordTooLong := by
  refine ⟨by decide, by decide, ⟨65, by decide, by decide⟩, ⟨97, by decide, by decide⟩,
    ⟨49, by decide, by decide⟩, ⟨33, by decide, by decide⟩, by decide⟩

/-- C2, the code at the failing input: `"Aa1!éé"` has six characters, fewer
than eight, and `ValidatePassword` accepts it instead of returning
`ErrPasswordTooShort`, because `len` counts its eight bytes. -/
theorem shortAccented_passes_ValidatePassword :
    runeCount shortAccented = 6 ∧ shortAccented.length = 8 ∧
      ValidatePassword latin1Letters shortAccented = none := by
  refine ⟨by decide, by decide, by decide⟩

/-- C3 (as amended): for every password whose length passes the two length
checks and among whose runes, as `range` yields them, there is no uppercase
letter, or no lowercase letter, or no number in the sense of
`unicode.IsNumber`, or no punctuation or symbol character, `ValidatePassword`
returns `ErrPasswordTooWeak`. -/
theorem ValidatePassword_weak (T : UnicodeTables) (p : GoString)
    (hmin : 8 ≤ p.length) (hmax : p.length ≤ 72)
    (h : (∀ r ∈ runes p, IsUpper T r = false) ∨ (∀ r ∈ runes p, IsLower T r = false) ∨
      (∀ r ∈ runes p, IsNumber T r = false) ∨
      (∀ r ∈ runes p, IsPunct T r = false ∧ IsSymbol T r = false)) :
    ValidatePassword T p = some Error.ErrPasswordTooWeak := by
  have hflag : ((scan T p).hasUpper && (scan T p).hasLower && (scan T p).hasNumber &&
      (scan T p).hasSpecial) = false := by
    rw [scan_hasUpper, scan_hasLower, scan_hasNumber, scan_hasSpecial]
    rcases h with h | h | h | h
    · have : (runes p).any (IsUpper T) = false := by
        rw [List.any_eq_false]; intro x hx; simp [h x hx]
      simp [this]
    · have : (runes p).any (fun r => !IsUpper T r && IsLower T r) = false := by
        rw [List.any_eq_false]; intro x hx; simp [h x hx]
      simp [this]
    · have : (runes p).any (fun r => !IsUpper T r && !IsLower T r && IsNumber T r) = false := by
        rw [List.any_eq_false]; intro x hx; simp [h x hx]
      simp [this]
    · have : (runes p).any (fun r => !IsUpper T r && !IsLower T r && !IsNumber T r &&
          (IsPunct T r || IsSymbol T r)) = false := by
        rw [List.any_eq_false]; intro x hx; simp [(h x hx).1, (h x hx).2]
      simp [this]
  unfold ValidatePassword minPasswordLength maxPasswordLength
  rw [if_neg (by omega), if_neg (by omega)]
  simp only [hflag, Bool.not_false, if_true]

/-- C3, witness: `"testpass123!"` has no uppercase letter and is too weak. -/
theorem ValidatePassword_weak_witness :
    8 ≤ noUpperPass.length ∧ noUpperPass.length ≤ 72 ∧
      (∀ r ∈ runes noUpperPass, IsUpper latin1Letters r = false) ∧
      ValidatePassword latin1Letters noUpperPass = some Error.ErrPasswordTooWeak :=
  ⟨by decide, by decide, by decide,
    ValidatePassword_weak latin1Letters noUpperPass (by decide) (by decide)
      (Or.inl (by decide))⟩

theorem clampLength_spec (n : Int) :
    ∃ m : Nat, clampLength n = ((m + 8 : Nat) : Int) ∧ m ≤ 64 ∧
      (8 ≤ n → n ≤ 72 → ((m + 8 : Nat) : Int) = n) ∧ (n < 8 → m + 8 = 8) ∧
      (72 < n → m + 8 = 72) := by
  unfold clampLength minPasswordLength maxPasswordLength
  by_cases h1 : n < 8
  · refine ⟨0, ?_, by omega, by omega, by omega, by omega⟩
    simp [h1]
  · by_cases h2 : n > 72
    · refine ⟨64, ?_, by omega, by omega, by omega, by omega⟩
      simp [h1, h2]
    · refine ⟨(n - 8).toNat, ?_, by omega, by omega, by omega, by omega⟩
      simp only [Nat.cast_ofNat, h1, if_false, h2]
      omega

/-- What `GenerateRandomPassword` hands to `ShuffleBytes`, and that the shuffle
returns a slice of the same length with the same bytes. -/
theorem GenerateRandomPassword_run (n : Int) :
    ∃ (m : Nat) (s : GoString), clampLength n = ((m + 8 : Nat) : Int) ∧
      GenerateRandomPassword n = some (s, none) ∧ s.length = m + 8 ∧
      ∀ x, x ∈ s ↔ x ∈ [78, 110, 53, 61] ++ List.replicate (m + 4) 115 := by
  obtain ⟨m, hm, -⟩ := clampLength_spec n
  have hfill := fillFrom_spec (m + 4) [78, 110, 53, 61]
  obtain ⟨s, hs1, hs2, hs3⟩ :=
    ShuffleBytes_spec ([78, 110, 53, 61] ++ List.replicate (m + 4) 115) (by simp)
  refine ⟨m, s, hm, ?_, by simpa using hs2, hs3⟩
  have hu : index upperChars (SecureRandom upperChars.length) = some 78 := by decide
  have hl : index lowerChars (SecureRandom lowerChars.length) = some 110 := by decide
  have hn : index numberChars (SecureRandom numberChars.length) = some 53 := by decide
  have hp : index specialChars (SecureRandom specialChars.length) = some 61 := by decide
  have hrep : List.replicate (m + 8) 0 = 0 :: 0 :: 0 :: 0 :: List.replicate (m + 4) 0 := by
    simp [List.replicate_succ]
  have h0 : assign (0 :: 0 :: 0 :: 0 :: List.replicate (m + 4) 0) 0 78 =
      some (78 :: 0 :: 0 :: 0 :: List.replicate (m + 4) 0) := by simp [assign]
  have h1 : assign (78 :: 0 :: 0 :: 0 :: List.replicate (m + 4) 0) 1 110 =
      some (78 :: 110 :: 0 :: 0 :: List.replicate (m + 4) 0) := by simp [assign]
  have h2 : assign (78 :: 110 :: 0 :: 0 :: List.replicate (m + 4) 0) 2 53 =
      some (78 :: 110 :: 53 :: 0 :: List.replicate (m + 4) 0) := by simp [assign]
  have h3 : assign (78 :: 110 :: 53 :: 0 :: List.replicate (m + 4) 0) 3 61 =
      some ([78, 110, 53, 61] ++ List.replicate (m + 4) 0) := by simp [assign]
  have hk : m + 8 - 4 = m + 4 := by omega
  unfold GenerateRandomPassword
  simp only [hm, Int.toNat_ofNat, hu, hl, hn, hp, hrep, h0, h1, h2, h3, hk,
    Option.bind_eq_bind, Option.some_bind, Option.pure_def]
  have hfill' : fillFrom (m + 4) 4 ([78, 110, 53, 61] ++ List.replicate (m + 4) 0) =
      some ([78, 110, 53, 61] ++ List.replicate (m + 4) 115) := hfill
  rw [hfill']
  simp only [Option.some_bind]
  rw [hs1]
  rfl

/-- C4: for every length `n`, `GenerateRandomPassword n` returns, without a
panic and without an error, a string whose length is `n` clamped into
`[8, 72]` and which `ValidatePassword` accepts. -/
theorem GenerateRandomPassword_valid (T : UnicodeTables) (n : Int) :
    ∃ s : GoString, GenerateRandomPassword n = some (s, none) ∧
      (8 ≤ n → n ≤ 72 → (s.length : Int) = n) ∧ (n < 8 → s.length = 8) ∧
      (72 < n → s.length = 72) ∧ runeCount s = s.length ∧
      ValidatePassword T s = none := by
  obtain ⟨m, hm, hm64, hin, hlo, hhi⟩ := clampLength_spec n
  obtain ⟨m', s, hm', hrun, hlen, hmem⟩ := GenerateRandomPassword_run n
  have hmm : m' = m := by
    have := hm'.symm.trans hm
    omega
  subst hmm
  have hascii : ∀ b ∈ s, b < 0x80 := by
    intro b hb
    have := (hmem b).1 hb
    simp only [List.mem_append, List.mem_cons, List.mem_singleton, List.not_mem_nil,
      or_false, List.mem_replicate] at this
    omega
  have hrunes : runes s = s := runes_ascii s hascii
  refine ⟨s, hrun, ?_, ?_, ?_, ?_, ?_⟩
  · intro h1 h2; rw [hlen]; exact hin h1 h2
  · intro h; rw [hlen]; exact hlo h
  · intro h; rw [hlen]; exact hhi h
  · rw [runeCount, hrunes]
  · rw [ValidatePassword_eq_none_iff, scan_hasUpper, scan_hasLower, scan_hasNumber,
      scan_hasSpecial, hrunes]
    refine ⟨by omega, by omega, ?_, ?_, ?_, ?_⟩
    · exact List.any_eq_true.2 ⟨78, (hmem 78).2 (by simp), by simp [IsUpper]⟩
    · exact List.any_eq_true.2 ⟨110, (hmem 110).2 (by simp), by simp [IsUpper, IsLower]⟩
    · exact List.any_eq_true.2
        ⟨53, (hmem 53).2 (by simp), by simp [IsUpper, IsLower, IsNumber]⟩
    · exact List.any_eq_true.2
        ⟨61, (hmem 61).2 (by simp),
          by simp [IsUpper, IsLower, IsNumber, IsPunct, IsSymbol, asciiSymbol]⟩

/-- C5: whenever `ValidatePassword p` returns an error `e` (one of too short,
too long, too weak), `HashPassword p` returns the empty string and that same
error, whatever the hashing primitive would do: it is not consulted. -/
theorem HashPassword_propagates (T : UnicodeTables) (p : GoString) (e : Error)
    (h : ValidatePassword T p = some e) :
    (e = .ErrPasswordTooShort ∨ e = .ErrPasswordTooLong ∨ e = .ErrPasswordTooWeak) ∧
      ∀ B : Bcrypt, HashPassword T B p = ([], some e) := by
  refine ⟨ValidatePassword_errors T p e h, ?_⟩
  intro B
  simp [HashPassword, h]

/-- C5, witness: `"Test1!"` is too short, and so `HashPassword` says. -/
theorem HashPassword_propagates_witness :
    ValidatePassword latin1Letters shortPass = some Error.ErrPasswordTooShort ∧
      ∀ B : Bcrypt, HashPassword latin1Letters B shortPass =
        ([], some Error.ErrPasswordTooShort) :=
  ⟨by decide,
    (HashPassword_propagates latin1Letters shortPass Error.ErrPasswordTooShort
      (by decide)).2⟩

/-- On a password that passes the policy `HashPassword` returns what bcrypt
generates, and `ErrPasswordHashFailed` when bcrypt fails. -/
theorem HashPassword_valid (T : UnicodeTables) (B : Bcrypt) (p : GoString)
    (h : ValidatePassword T p = none) :
    HashPassword T B p =
      match B.GenerateFromPassword p bcryptCost with
      | .error _ => ([], some Error.ErrPasswordHashFailed)
      | .ok hashedBytes => (hashedBytes, none) := by
  simp only [HashPassword, h]

/-- The function `ComparePassword` returns no error exactly when bcrypt's
comparison does, and its mismatch error exactly when bcrypt reports a mismatch. -/
theorem ComparePassword_outcome (B : Bcrypt) (hash password : GoString) :
    (ComparePassword B hash password = none ↔
        B.CompareHashAndPassword hash password = none) ∧
      (ComparePassword B hash password = some Error.ErrPasswordCompareError ↔
        B.CompareHashAndPassword hash password =
          some BcryptError.ErrMismatchedHashAndPassword) := by
  unfold ComparePassword
  cases h : B.CompareHashAndPassword hash password with
  | none => simp
  | some err =>
    by_cases he : err = BcryptError.ErrMismatchedHashAndPassword
    · simp [he]
    · simp [he]

/-- C7 (as amended): whenever bcrypt's comparison reports an error other than
its mismatch sentinel, as it does for a hash it cannot parse, `ComparePassword`
returns an error, namely that library error unchanged; it differs from
`ErrPasswordCompareError` and is none of the errors the package declares. -/
theorem ComparePassword_passes_library_error (B : Bcrypt) (hash password : GoString)
    (err : BcryptError) (h : B.CompareHashAndPassword hash password = some err)
    (hne : err ≠ .ErrMismatchedHashAndPassword) :
    ComparePassword B hash password = some (Error.library err) ∧
      Error.library err ≠ Error.ErrPasswordCompareError ∧
      (Error.library err).isSentinel = false := by
  refine ⟨?_, ?_, rfl⟩
  · simp [ComparePassword, h, hne]
  · intro hc; cases hc

/-- C7, witness: the hash `"invalid_hash"` against `"TestPass123!"`. -/
theorem ComparePassword_passes_library_error_witness :
    shortHashBcrypt.CompareHashAndPassword invalidHash testPass =
        some BcryptError.ErrHashTooShort ∧
      ComparePassword shortHashBcrypt invalidHash testPass =
        some (Error.library BcryptError.ErrHashTooShort) :=
  ⟨by decide,
    (ComparePassword_passes_library_error shortHashBcrypt invalidHash testPass
      BcryptError.ErrHashTooShort (by decide) (by decide)).1⟩

/-- C7, counterexample: for the unparseable hash `"invalid_hash"` the error
returned is bcrypt's own `ErrHashTooShort`, not an error of this package. -/
theorem ComparePassword_invalidHash_not_sentinel :
    ComparePassword shortHashBcrypt invalidHash testPass =
        some (Error.library BcryptError.ErrHashTooShort) ∧
      ¬ ∃ e : Error, e.isSentinel = true ∧
        ComparePassword shortHashBcrypt invalidHash testPass = some e := by
  refine ⟨by decide, ?_⟩
  rintro ⟨e, he, h⟩
  have h' : ComparePassword shortHashBcrypt invalidHash testPass =
      some (Error.library BcryptError.ErrHashTooShort) := by decide
  rw [h'] at h
  cases h
  cases he

/-- C3, counterexample: `"Aa!aaaa½"` passes the length checks and holds no
digit, yet `ValidatePassword` accepts it instead of returning
`ErrPasswordTooWeak`: `½` is a number for `unicode.IsNumber`, the test the
code makes. -/
theorem ValidatePassword_accepts_halfPass :
    8 ≤ halfPass.length ∧ halfPass.length ≤ 72 ∧
      runes halfPass = [65, 97, 33, 97, 97, 97, 97, 0xBD] ∧
      (∀ r ∈ runes halfPass, isLatin1Digit r = false) ∧
      IsNumber latin1Table 0xBD = true ∧
      ValidatePassword latin1Table halfPass = none := by
  refine ⟨by decide, by decide, by decide, by decide, by decide, by decide⟩

end Password

namespace Database

open Password (GoString UnicodeTables Bcrypt)

/-! ## The statements, one at a time -/

theorem firstPermission_ok (env : Env) (tx : Store) (name : String) (r : Option Permission)
    (h : firstPermission env tx name = .ok r) :
    env.lookupFails .permissions name = false ∧
      r = tx.permissions.find? (fun p => !p.deleted && p.Name == name) := by
  unfold firstPermission at h
  split at h
  · cases h
  · rename_i hf
    injection h with h
    exact ⟨by simpa using hf, h.symm⟩

theorem firstRole_ok (env : Env) (tx : Store) (name : String) (r : Option Role)
    (h : firstRole env tx name = .ok r) :
    env.lookupFails .roles name = false ∧
      r = tx.roles.find? (fun p => !p.deleted && p.Name == name) := by
  unfold firstRole at h
  split at h
  · cases h
  · rename_i hf
    injection h with h
    exact ⟨by simpa using hf, h.symm⟩

theorem firstUser_ok (env : Env) (tx : Store) (email : String) (r : Option User)
    (h : firstUser env tx email = .ok r) :
    env.lookupFails .users email = false ∧
      r = tx.users.find? (fun p => !p.deleted && p.Email == email) := by
  unfold firstUser at h
  split at h
  · cases h
  · rename_i hf
    injection h with h
    exact ⟨by simpa using hf, h.symm⟩

theorem permission_BeforeCreate_Name (env : Env) (perm : Permission) :
    (perm.BeforeCreate env).Name = perm.Name := by
  unfold Permission.BeforeCreate
  split <;> rfl

theorem permission_BeforeCreate_deleted (env : Env) (perm : Permission) :
    (perm.BeforeCreate env).deleted = perm.deleted := by
  unfold Permission.BeforeCreate
  split <;> rfl

theorem createPermission_ok (env : Env) (tx tx' : Store) (perm perm' : Permission)
    (h : createPermission env tx perm = .ok (tx', perm')) :
    env.createFails .permissions perm.Name = false ∧
      tx' = { tx with permissions := tx.permissions ++ [perm'] } ∧
      perm' = perm.BeforeCreate env := by
  unfold createPermission at h
  split at h
  · cases h
  · rename_i hf
    simp only at h
    split at h
    · cases h
    · injection h with h
      injection h with h1 h2
      subst h2
      exact ⟨by simpa using hf, h1.symm, rfl⟩

theorem role_BeforeCreate_Name (env : Env) (role : Role) :
    (role.BeforeCreate env).Name = role.Name := by
  unfold Role.BeforeCreate
  split <;> rfl

theorem role_BeforeCreate_deleted (env : Env) (role : Role) :
    (role.BeforeCreate env).deleted = role.deleted := by
  unfold Role.BeforeCreate
  split <;> rfl

theorem createRole_ok (env : Env) (tx tx' : Store) (role role' : Role)
    (h : createRole env tx role = .ok (tx', role')) :
    env.createFails .roles role.Name = false ∧
      tx' = { tx with roles := tx.roles ++ [role'] } ∧
      role' = role.BeforeCreate env := by
  unfold createRole at h
  split at h
  · cases h
  · rename_i hf
    simp only at h
    split at h
    · cases h
    · injection h with h
      injection h with h1 h2
      subst h2
      exact ⟨by simpa using hf, h1.symm, rfl⟩

theorem user_BeforeCreate_Email (env : Env) (user : User) :
    (user.BeforeCreate env).Email = user.Email := by
  unfold User.BeforeCreate
  split <;> rfl

theorem user_BeforeCreate_deleted (env : Env) (user : User) :
    (user.BeforeCreate env).deleted = user.deleted := by
  unfold User.BeforeCreate
  split <;> rfl

theorem createUser_ok (env : Env) (tx tx' : Store) (user user' : User)
    (h : createUser env tx user = .ok (tx', user')) :
    env.createFails .users user.Email = false ∧
      tx' = { tx with users := tx.users ++ [user'] } ∧
      user' = user.BeforeCreate env := by
  unfold createUser at h
  split at h
  · cases h
  · rename_i hf
    simp only at h
    split at h
    · cases h
    · injection h with h
      injection h with h1 h2
      subst h2
      exact ⟨by simpa using hf, h1.symm, rfl⟩

/-! ## The permission loop -/

/-- What a successful run of the permission loop did. -/
theorem seedPermissions_ok (env : Env) (cat : List Permission) (tx tx' : Store)
    (hcat : ∀ q ∈ cat, q.deleted = false) (h : seedPermissions env cat tx = .ok tx') :
    tx'.roles = tx.roles ∧ tx'.users = tx.users ∧
      tx'.role_permissions = tx.role_permissions ∧ tx'.user_roles = tx.user_roles ∧
      (∃ added, tx'.permissions = tx.permissions ++ added ∧
        ∀ p ∈ added, p.deleted = false ∧ ∃ q ∈ cat, p.Name = q.Name) ∧
      (∀ q ∈ cat, ∃ p ∈ tx'.permissions, p.deleted = false ∧ p.Name = q.Name) ∧
      (∀ q ∈ cat, env.lookupFails .permissions q.Name = false) := by
  induction cat generalizing tx with
  | nil =>
    injection h with h
    subst h
    exact ⟨rfl, rfl, rfl, rfl, ⟨[], by simp, by simp⟩, by simp, by simp⟩
  | cons q rest ih =>
    have hrest : ∀ q ∈ rest, q.deleted = false := fun x hx => hcat x (List.mem_cons_of_mem _ hx)
    unfold seedPermissions at h
    split at h
    · cases h
    · rename_i found hfirst
      obtain ⟨hl, hfound⟩ := firstPermission_ok _ _ _ _ hfirst
      obtain ⟨h1, h2, h3, h4, ⟨added, h5, h6⟩, h7, h8⟩ := ih tx hrest h
      have hmem := List.mem_of_find?_eq_some hfound.symm
      have hp := List.find?_some hfound.symm
      simp only [Bool.and_eq_true, Bool.not_eq_true', beq_iff_eq] at hp
      refine ⟨h1, h2, h3, h4, ⟨added, h5, ?_⟩, ?_, ?_⟩
      · intro p hp'
        obtain ⟨hd, q', hq', hn⟩ := h6 p hp'
        exact ⟨hd, q', List.mem_cons_of_mem _ hq', hn⟩
      · intro q' hq'
        rcases List.mem_cons.1 hq' with rfl | hq'
        · exact ⟨found, by rw [h5]; exact List.mem_append_left _ hmem, hp.1, hp.2⟩
        · exact h7 q' hq'
      · intro q' hq'
        rcases List.mem_cons.1 hq' with rfl | hq'
        · exact hl
        · exact h8 q' hq'
    · rename_i hfirst
      obtain ⟨hl, -⟩ := firstPermission_ok _ _ _ _ hfirst
      split at h
      · cases h
      · rename_i tx1 perm' hcreate
        obtain ⟨-, htx1, hperm'⟩ := createPermission_ok _ _ _ _ _ hcreate
        obtain ⟨h1, h2, h3, h4, ⟨added, h5, h6⟩, h7, h8⟩ := ih tx1 hrest h
        subst htx1
        have hname : perm'.Name = q.Name := by rw [hperm', permission_BeforeCreate_Name]
        have hdel : perm'.deleted = false := by
          rw [hperm', permission_BeforeCreate_deleted]
          exact hcat q (List.mem_cons_self _ _)
        refine ⟨h1, h2, h3, h4, ⟨perm' :: added, by simpa using h5, ?_⟩, ?_, ?_⟩
        · intro p hp'
          rcases List.mem_cons.1 hp' with rfl | hp'
          · exact ⟨hdel, q, List.mem_cons_self _ _, hname⟩
          · obtain ⟨hd, q', hq', hn⟩ := h6 p hp'
            exact ⟨hd, q', List.mem_cons_of_mem _ hq', hn⟩
        · intro q' hq'
          rcases List.mem_cons.1 hq' with rfl | hq'
          · refine ⟨perm', ?_, hdel, hname⟩
            rw [h5]
            simp
          · exact h7 q' hq'
        · intro q' hq'
          rcases List.mem_cons.1 hq' with rfl | hq'
          · exact hl
          · exact h8 q' hq'

/-- When every catalog name is already there, the loop writes nothing. -/
theorem seedPermissions_present (env : Env) (cat : List Permission) (tx : Store)
    (h : ∀ q ∈ cat, env.lookupFails .permissions q.Name = false ∧
      ∃ p ∈ tx.permissions, p.deleted = false ∧ p.Name = q.Name) :
    seedPermissions env cat tx = .ok tx := by
  induction cat with
  | nil => rfl
  | cons q rest ih =>
    obtain ⟨hl, p, hp, hd, hn⟩ := h q (List.mem_cons_self _ _)
    have hsome : (tx.permissions.find? (fun p => !p.deleted && p.Name == q.Name)).isSome := by
      rw [List.find?_isSome]
      exact ⟨p, hp, by simp [hd, hn]⟩
    obtain ⟨found, hfound⟩ := Option.isSome_iff_exists.1 hsome
    unfold seedPermissions
    have : firstPermission env tx q.Name = .ok (some found) := by
      simp [firstPermission, hl, hfound]
    rw [this]
    exact ih (fun q' hq' => h q' (List.mem_cons_of_mem _ hq'))

/-! ## The role, user and association blocks -/

theorem findPermissions_ok (env : Env) (tx : Store) (ps : List Permission)
    (h : findPermissions env tx = .ok ps) :
    env.findFails = false ∧ ps = tx.permissions.filter (fun p => !p.deleted) := by
  unfold findPermissions at h
  split at h
  · cases h
  · rename_i hf
    injection h with h
    exact ⟨by simpa using hf, h.symm⟩

theorem replacePermissions_ok (env : Env) (tx tx' : Store) (role : Role)
    (perms : List Permission) (h : replacePermissions env tx role perms = .ok tx') :
    env.replaceFails .roles = false ∧
      tx' = { tx with
        role_permissions :=
          tx.role_permissions.filter (fun rp => rp.1 != role.ID) ++
            perms.map (fun p => (role.ID, p.ID)) } := by
  unfold replacePermissions at h
  split at h
  · cases h
  · rename_i hf
    injection h with h
    exact ⟨by simpa using hf, h.symm⟩

theorem replaceRoles_ok (env : Env) (tx tx' : Store) (user : User) (role : Role)
    (h : replaceRoles env tx user role = .ok tx') :
    env.replaceFails .users = false ∧
      tx' = { tx with
        user_roles :=
          tx.user_roles.filter (fun ur => ur.1 != user.ID) ++ [(user.ID, role.ID)] } := by
  unfold replaceRoles at h
  split at h
  · cases h
  · rename_i hf
    injection h with h
    exact ⟨by simpa using hf, h.symm⟩

/-- What a successful admin-role block did. -/
theorem seedAdminRole_ok (env : Env) (tx tx' : Store) (role : Role)
    (h : seedAdminRole env tx = .ok (tx', role)) :
    env.lookupFails .roles "admin" = false ∧
      (tx.roles.find? (fun r => !r.deleted && r.Name == "admin") = none →
        env.createFails .roles "admin" = false) ∧
      tx'.permissions = tx.permissions ∧ tx'.users = tx.users ∧
      tx'.role_permissions = tx.role_permissions ∧ tx'.user_roles = tx.user_roles ∧
      (∃ extra, tx'.roles = tx.roles ++ extra ∧ ∀ r ∈ extra, r.Name = "admin") ∧
      tx'.roles.find? (fun r => !r.deleted && r.Name == "admin") = some role := by
  unfold seedAdminRole at h
  split at h
  · cases h
  · rename_i found hfirst
    obtain ⟨hl, hfound⟩ := firstRole_ok _ _ _ _ hfirst
    injection h with h
    injection h with h1 h2
    subst h1 h2
    refine ⟨hl, ?_, rfl, rfl, rfl, rfl, ⟨[], by simp, by simp⟩, hfound.symm⟩
    intro hnone
    have : tx.roles.find? (fun r => !r.deleted && r.Name == "admin") = some found :=
      hfound.symm
    rw [hnone] at this
    cases this
  · rename_i hfirst
    obtain ⟨hl, hfound⟩ := firstRole_ok _ _ _ _ hfirst
    split at h
    · cases h
    · rename_i tx1 role' hcreate
      obtain ⟨hc, htx1, hrole'⟩ := createRole_ok _ _ _ _ _ hcreate
      injection h with h
      injection h with h1 h2
      subst h1 h2 htx1
      have hname : role'.Name = "admin" := by
        rw [hrole', role_BeforeCreate_Name]
        rfl
      refine ⟨hl, fun _ => hc, rfl, rfl, rfl, rfl, ⟨[role'], rfl, by simpa using hname⟩, ?_⟩
      have hnone : tx.roles.find? (fun r => !r.deleted && r.Name == "admin") = none :=
        hfound.symm
      have hb : (!role'.deleted && role'.Name == "admin") = true := by
        rw [hrole', role_BeforeCreate_Name, role_BeforeCreate_deleted]
        rfl
      simp only [List.find?_append, hnone, Option.none_or, List.find?_cons, hb]

/-- What a successful user-role block did. -/
theorem seedUserRole_ok (env : Env) (tx tx' : Store) (h : seedUserRole env tx = .ok tx') :
    env.lookupFails .roles "user" = false ∧
      (tx.roles.find? (fun r => !r.deleted && r.Name == "user") = none →
        env.createFails .roles "user" = false) ∧
      tx'.permissions = tx.permissions ∧ tx'.users = tx.users ∧
      tx'.role_permissions = tx.role_permissions ∧ tx'.user_roles = tx.user_roles ∧
      (∃ extra, tx'.roles = tx.roles ++ extra) := by
  unfold seedUserRole at h
  split at h
  · cases h
  · rename_i found hfirst
    obtain ⟨hl, hfound⟩ := firstRole_ok _ _ _ _ hfirst
    injection h with h
    subst h
    refine ⟨hl, ?_, rfl, rfl, rfl, rfl, ⟨[], by simp⟩⟩
    intro hnone
    have : tx.roles.find? (fun r => !r.deleted && r.Name == "user") = some found :=
      hfound.symm
    rw [hnone] at this
    cases this
  · rename_i hfirst
    obtain ⟨hl, -⟩ := firstRole_ok _ _ _ _ hfirst
    split at h
    · cases h
    · rename_i tx1 role' hcreate
      obtain ⟨hc, htx1, -⟩ := createRole_ok _ _ _ _ _ hcreate
      injection h with h
      subst h htx1
      exact ⟨hl, fun _ => hc, rfl, rfl, rfl, rfl, ⟨[role'], rfl⟩⟩

/-- What a successful permission-assignment block did. -/
theorem seedAdminPermissions_ok (env : Env) (tx tx' : Store) (role : Role)
    (h : seedAdminPermissions env tx role = .ok tx') :
    env.findFails = false ∧ env.replaceFails .roles = false ∧
      tx' = { tx with
        role_permissions :=
          tx.role_permissions.filter (fun rp => rp.1 != role.ID) ++
            (tx.permissions.filter (fun p => !p.deleted)).map (fun p => (role.ID, p.ID)) } := by
  unfold seedAdminPermissions at h
  split at h
  · cases h
  · rename_i ps hfind
    obtain ⟨hf, hps⟩ := findPermissions_ok _ _ _ hfind
    split at h
    · cases h
    · rename_i tx1 hrep
      obtain ⟨hr, htx1⟩ := replacePermissions_ok _ _ _ _ _ hrep
      injection h with h
      subst h hps
      exact ⟨hf, hr, htx1⟩

/-- What a successful admin-user block did. -/
theorem seedAdminUser_ok (env : Env) (tx tx' : Store) (adminUser user : User)
    (hdel : adminUser.deleted = false)
    (h : seedAdminUser env tx adminUser = .ok (tx', user)) :
    env.lookupFails .users adminUser.Email = false ∧
      (tx.users.find? (fun u => !u.deleted && u.Email == adminUser.Email) = none →
        env.createFails .users adminUser.Email = false) ∧
      tx'.permissions = tx.permissions ∧ tx'.roles = tx.roles ∧
      tx'.role_permissions = tx.role_permissions ∧ tx'.user_roles = tx.user_roles ∧
      (∃ extra, tx'.users = tx.users ++ extra) ∧
      tx'.users.find? (fun u => !u.deleted && u.Email == adminUser.Email) = some user := by
  unfold seedAdminUser at h
  split at h
  · cases h
  · rename_i found hfirst
    obtain ⟨hl, hfound⟩ := firstUser_ok _ _ _ _ hfirst
    injection h with h
    injection h with h1 h2
    subst h1 h2
    refine ⟨hl, ?_, rfl, rfl, rfl, rfl, ⟨[], by simp⟩, hfound.symm⟩
    intro hnone
    have : tx.users.find? (fun u => !u.deleted && u.Email == adminUser.Email) = some found :=
      hfound.symm
    rw [hnone] at this
    cases this
  · rename_i hfirst
    obtain ⟨hl, hfound⟩ := firstUser_ok _ _ _ _ hfirst
    split at h
    · cases h
    · rename_i tx1 user' hcreate
      obtain ⟨hc, htx1, huser'⟩ := createUser_ok _ _ _ _ _ hcreate
      injection h with h
      injection h with h1 h2
      subst h1 h2 htx1
      refine ⟨hl, fun _ => hc, rfl, rfl, rfl, rfl, ⟨[user'], rfl⟩, ?_⟩
      have hnone : tx.users.find? (fun u => !u.deleted && u.Email == adminUser.Email) = none :=
        hfound.symm
      have hb : (!user'.deleted && user'.Email == adminUser.Email) = true := by
        rw [huser', user_BeforeCreate_Email, user_BeforeCreate_deleted, hdel]
        simp
      simp only [List.find?_append, hnone, Option.none_or, List.find?_cons, hb]

/-- What a successful role-assignment block did. -/
theorem seedAdminUserRole_ok (env : Env) (tx tx' : Store) (user : User) (role : Role)
    (h : seedAdminUserRole env tx user role = .ok tx') :
    env.replaceFails .users = false ∧
      tx' = { tx with
        user_roles :=
          tx.user_roles.filter (fun ur => ur.1 != user.ID) ++ [(user.ID, role.ID)] } := by
  unfold seedAdminUserRole at h
  split at h
  · cases h
  · rename_i tx1 hrep
    obtain ⟨hr, htx1⟩ := replaceRoles_ok _ _ _ _ _ hrep
    injection h with h
    subst h
    exact ⟨hr, htx1⟩

/-- A successful transaction body ran its six blocks one after the other. -/
theorem seedTransaction_ok (env : Env) (adminUser : User) (db db' : Store)
    (h : seedTransaction env adminUser db = .ok db') :
    ∃ tx1 tx2 tx3 tx4 tx5 role user,
      seedPermissions env permissions db = .ok tx1 ∧
      seedAdminRole env tx1 = .ok (tx2, role) ∧
      seedUserRole env tx2 = .ok tx3 ∧
      seedAdminPermissions env tx3 role = .ok tx4 ∧
      seedAdminUser env tx4 adminUser = .ok (tx5, user) ∧
      seedAdminUserRole env tx5 user role = .ok db' := by
  unfold seedTransaction at h
  split at h
  · cases h
  · rename_i tx1 h1
    split at h
    · cases h
    · rename_i tx2 role h2
      split at h
      · cases h
      · rename_i tx3 h3
        split at h
        · cases h
        · rename_i tx4 h4
          split at h
          · cases h
          · rename_i tx5 user h5
            exact ⟨tx1, tx2, tx3, tx4, tx5, role, user, h1, h2, h3, h4, h5, h⟩

/-- A successful call hashed the password, and committed a successful
transaction body. -/
theorem seedInitialData_ok (T : UnicodeTables) (B : Bcrypt) (env : Env) (db db' : Store)
    (h : seedInitialData T B env db = (db', none)) :
    ∃ hashedPassword,
      Password.HashPassword T B defaultAdminPassword = (hashedPassword, none) ∧
      env.beginFails = false ∧ env.commitFails = false ∧
      seedTransaction env (adminUser hashedPassword) db = .ok db' := by
  unfold seedInitialData at h
  split at h
  · cases h
  · rename_i hashedPassword hhash
    refine ⟨hashedPassword, hhash, ?_⟩
    unfold Transaction at h
    split at h
    · cases h
    · rename_i hb
      split at h
      · cases h
      · rename_i tx htx
        split at h
        · cases h
        · rename_i hc
          injection h with h1 h2
          subst h1
          exact ⟨by simpa using hb, by simpa using hc, htx⟩

/-- The shape of the store a successful call leaves, in terms of the store
after the role blocks. -/
theorem seedInitialData_shape (T : UnicodeTables) (B : Bcrypt) (env : Env) (db db' : Store)
    (h : seedInitialData T B env db = (db', none)) :
    ∃ (role : Role) (user : User) (added : List Permission) (oldJoins oldUserRoles : List (UUID × UUID)),
      db'.findAdminRole = some role ∧ db'.findAdminUser = some user ∧
      db'.permissions = db.permissions ++ added ∧
      (∀ p ∈ added, p.deleted = false ∧ p.Name ∈ catalog) ∧
      (∀ name ∈ catalog, ∃ p ∈ db'.permissions, p.deleted = false ∧ p.Name = name) ∧
      db'.role_permissions = oldJoins.filter (fun rp => rp.1 != role.ID) ++
        (db'.permissions.filter (fun p => !p.deleted)).map (fun p => (role.ID, p.ID)) ∧
      db'.user_roles = oldUserRoles.filter (fun ur => ur.1 != user.ID) ++
        [(user.ID, role.ID)] := by
  obtain ⟨hp, -, -, -, htx⟩ := seedInitialData_ok T B env db db' h
  obtain ⟨tx1, tx2, tx3, tx4, tx5, role, user, h1, h2, h3, h4, h5, h6⟩ :=
    seedTransaction_ok env _ db db' htx
  obtain ⟨-, -, -, -, ⟨added, hadd, haddp⟩, hcat, -⟩ :=
    seedPermissions_ok env permissions db tx1 (by decide) h1
  obtain ⟨-, -, r1, -, -, -, -, rfind⟩ := seedAdminRole_ok env tx1 tx2 role h2
  obtain ⟨-, -, u1, -, -, -, ⟨extra, u5⟩⟩ := seedUserRole_ok env tx2 tx3 h3
  obtain ⟨-, -, a1⟩ := seedAdminPermissions_ok env tx3 tx4 role h4
  obtain ⟨-, -, v1, v2, v3, -, -, vfind⟩ :=
    seedAdminUser_ok env tx4 tx5 (adminUser hp) user rfl h5
  obtain ⟨-, w1⟩ := seedAdminUserRole_ok env tx5 db' user role h6
  have eperm : db'.permissions = tx1.permissions := by
    rw [w1]; simp only; rw [v1, a1]; simp only; rw [u1, r1]
  have eroles : db'.roles = tx2.roles ++ extra := by
    rw [w1]; simp only; rw [v2, a1]; simp only; rw [u5]
  refine ⟨role, user, added, tx3.role_permissions, tx5.user_roles, ?_, ?_, ?_, ?_, ?_, ?_, ?_⟩
  · unfold Store.findAdminRole
    rw [eroles, List.find?_append, rfind]
    rfl
  · unfold Store.findAdminUser
    rw [w1]
    exact vfind
  · rw [eperm, hadd]
  · intro p hp'
    obtain ⟨hd, q, hq, hn⟩ := haddp p hp'
    exact ⟨hd, List.mem_map.2 ⟨q, hq, hn.symm⟩⟩
  · intro name hname
    obtain ⟨q, hq, rfl⟩ := List.mem_map.1 hname
    rw [eperm]
    exact hcat q hq
  · rw [eperm, w1]; simp only; rw [v3, a1]; simp only; rw [u1, r1]
  · rw [w1]

/-- C8 (as amended): on every store on which `seedInitialData` succeeds, the
permissions associated with the admin role afterwards are all the permissions
in the store that are not soft-deleted; they include the nine catalog names,
and they are only catalog names when the store held no other permission
before.  The roles associated with the admin user are exactly the admin role. -/
theorem seedInitialData_grants (T : UnicodeTables) (B : Bcrypt) (env : Env) (db db' : Store)
    (h : seedInitialData T B env db = (db', none)) :
    ∃ role user, db'.findAdminRole = some role ∧ db'.findAdminUser = some user ∧
      db'.permissionsOf role = db'.permissions.filter (fun p => !p.deleted) ∧
      (∀ name ∈ catalog, ∃ p ∈ db'.permissionsOf role, p.Name = name) ∧
      ((∀ p ∈ db.permissions, p.deleted = false → p.Name ∈ catalog) →
        ∀ p ∈ db'.permissionsOf role, p.Name ∈ catalog) ∧
      (∀ rid, (user.ID, rid) ∈ db'.user_roles ↔ rid = role.ID) ∧
      role ∈ db'.rolesOf user ∧ ∀ r ∈ db'.rolesOf user, r.ID = role.ID := by
  obtain ⟨role, user, added, oldJoins, oldUserRoles, hrole, huser, hperm, hadded, hcat,
    hjoin, hur⟩ := seedInitialData_shape T B env db db' h
  have hpo : db'.permissionsOf role = db'.permissions.filter (fun p => !p.deleted) := by
    unfold Store.permissionsOf
    apply List.filter_congr
    intro p hp
    cases hd : p.deleted
    · have hmem : (role.ID, p.ID) ∈ db'.role_permissions := by
        rw [hjoin]
        apply List.mem_append_right
        exact List.mem_map.2 ⟨p, List.mem_filter.2 ⟨hp, by simp [hd]⟩, rfl⟩
      simp [hmem]
    · simp
  have hurmem : ∀ rid, (user.ID, rid) ∈ db'.user_roles ↔ rid = role.ID := by
    intro rid
    rw [hur]
    simp
  have hrmem := List.mem_of_find?_eq_some hrole
  have hrp := List.find?_some hrole
  simp only [Bool.and_eq_true, Bool.not_eq_true', beq_iff_eq] at hrp
  refine ⟨role, user, hrole, huser, hpo, ?_, ?_, hurmem, ?_, ?_⟩
  · intro name hname
    obtain ⟨p, hp, hd, hn⟩ := hcat name hname
    exact ⟨p, by rw [hpo]; exact List.mem_filter.2 ⟨hp, by simp [hd]⟩, hn⟩
  · intro hold p hp
    rw [hpo, List.mem_filter, hperm, List.mem_append] at hp
    obtain ⟨hp, hd⟩ := hp
    have hd' : p.deleted = false := by simpa using hd
    rcases hp with hp | hp
    · exact hold p hp hd'
    · exact (hadded p hp).2
  · unfold Store.rolesOf
    refine List.mem_filter.2 ⟨hrmem, ?_⟩
    have := (hurmem role.ID).2 rfl
    simp [hrp.1, this]
  · intro r hr
    unfold Store.rolesOf at hr
    have := (List.mem_filter.1 hr).2
    simp only [Bool.and_eq_true, Bool.not_eq_true', List.contains_iff_exists_mem_beq,
      beq_iff_eq] at this
    obtain ⟨-, x, hx, hxe⟩ := this
    subst hxe
    exact (hurmem r.ID).1 hx

/-- C8, witness: the seeding of the empty store. -/
theorem seedInitialData_grants_witness :
    seedInitialData Password.latin1Letters fixedBcrypt quietEnv Store.empty =
        (seededStore, none) ∧
      ∃ role user, seededStore.findAdminRole = some role ∧
        seededStore.findAdminUser = some user ∧
        seededStore.permissionsOf role = seededStore.permissions.filter (fun p => !p.deleted) ∧
        (∀ name ∈ catalog, ∃ p ∈ seededStore.permissionsOf role, p.Name = name) ∧
        ((∀ p ∈ Store.empty.permissions, p.deleted = false → p.Name ∈ catalog) →
          ∀ p ∈ seededStore.permissionsOf role, p.Name ∈ catalog) ∧
        (∀ rid, (user.ID, rid) ∈ seededStore.user_roles ↔ rid = role.ID) ∧
        role ∈ seededStore.rolesOf user ∧ ∀ r ∈ seededStore.rolesOf user, r.ID = role.ID :=
  ⟨by decide,
    seedInitialData_grants Password.latin1Letters fixedBcrypt quietEnv Store.empty seededStore
      (by decide)⟩

/-- C8, counterexample: seeding a store that already holds the permission
`billing:read` succeeds, and afterwards the admin role holds ten permissions,
`billing:read` and the nine of the catalog: not the catalog. -/
theorem seedInitialData_extraPermission :
    (seedInitialData Password.latin1Letters fixedBcrypt quietEnv extraPermissionStore).2 = none ∧
      ∃ role,
        (seedInitialData Password.latin1Letters fixedBcrypt quietEnv
          extraPermissionStore).1.findAdminRole = some role ∧
        ((seedInitialData Password.latin1Letters fixedBcrypt quietEnv
          extraPermissionStore).1.permissionsOf role).map (fun p => p.Name) =
            "billing:read" :: catalog ∧
        "billing:read" ∉ catalog :=
  ⟨by decide, ⟨11, false, "admin", "System administrator with full access"⟩, by decide,
    by decide, by decide⟩

/-- The default admin password passes the policy, whatever the tables say
about the code points above ASCII. -/
theorem ValidatePassword_defaultAdminPassword (T : UnicodeTables) :
    Password.ValidatePassword T defaultAdminPassword = none := by
  have hrunes : Password.runes defaultAdminPassword = defaultAdminPassword :=
    Password.runes_ascii _ (by decide)
  rw [Password.ValidatePassword_eq_none_iff, Password.scan_hasUpper, Password.scan_hasLower,
    Password.scan_hasNumber, Password.scan_hasSpecial, hrunes]
  refine ⟨by decide, by decide, ?_, ?_, ?_, ?_⟩
  · exact List.any_eq_true.2 ⟨65, by decide, by simp [Password.IsUpper]⟩
  · exact List.any_eq_true.2 ⟨100, by decide, by simp [Password.IsUpper, Password.IsLower]⟩
  · exact List.any_eq_true.2
      ⟨49, by decide, by simp [Password.IsUpper, Password.IsLower, Password.IsNumber]⟩
  · exact List.any_eq_true.2
      ⟨64, by decide, by simp [Password.IsUpper, Password.IsLower, Password.IsNumber,
        Password.IsPunct, Password.asciiPunct]⟩

/-- On a quiet database with distinct fresh identifiers, the permission loop
started after the rows `done` inserts every remaining row of the catalog. -/
theorem seedPermissions_fresh (env : Env) (hq : env.quiet) (cat done : List Permission)
    (tx : Store) (hzero : ∀ q ∈ cat, q.ID = 0)
    (hnames : ((done ++ cat).map (fun q => q.Name)).Nodup)
    (hids : ((done ++ cat).map (fun q => env.newUUID .permissions q.Name)).Nodup)
    (hdone : ∀ q ∈ done, q.ID = 0)
    (htx : tx.permissions = done.map (Permission.BeforeCreate env)) :
    seedPermissions env cat tx =
      .ok { tx with permissions := (done ++ cat).map (Permission.BeforeCreate env) } := by
  induction cat generalizing done tx with
  | nil =>
    simp only [seedPermissions, List.append_nil, ← htx]
  | cons q rest ih =>
    obtain ⟨-, -, hlook, hcreate, -, -⟩ := hq
    have hq0 : q.ID = 0 := hzero q (List.mem_cons_self _ _)
    have hbc : ∀ x : Permission, x.ID = 0 →
        Permission.BeforeCreate env x = { x with ID := env.newUUID .permissions x.Name } := by
      intro x hx
      simp [Permission.BeforeCreate, hx]
    rw [List.map_append, List.map_cons, List.nodup_append] at hnames hids
    have hn1 : ∀ d ∈ done, ¬ d.Name = q.Name := by
      intro d hd he
      exact hnames.2.2 (List.mem_map.2 ⟨d, hd, rfl⟩) (by rw [he]; exact List.mem_cons_self _ _)
    have hi1 : ∀ d ∈ done,
        ¬ env.newUUID .permissions d.Name = env.newUUID .permissions q.Name := by
      intro d hd he
      exact hids.2.2 (List.mem_map.2 ⟨d, hd, rfl⟩) (by rw [he]; exact List.mem_cons_self _ _)
    have hfind : tx.permissions.find? (fun p => !p.deleted && p.Name == q.Name) = none := by
      rw [htx, List.find?_eq_none]
      intro p hp
      obtain ⟨d, hd, rfl⟩ := List.mem_map.1 hp
      simp [permission_BeforeCreate_Name, hn1 d hd]
    have hany : tx.permissions.any (fun p =>
        p.ID == (Permission.BeforeCreate env q).ID ||
          p.Name == (Permission.BeforeCreate env q).Name) = false := by
      rw [htx, List.any_eq_false]
      intro p hp
      obtain ⟨d, hd, rfl⟩ := List.mem_map.1 hp
      rw [hbc d (hdone d hd), hbc q hq0]
      simp [hn1 d hd, hi1 d hd]
    have hfirst : firstPermission env tx q.Name = .ok none := by
      simp [firstPermission, hlook, hfind]
    have hcr : createPermission env tx q =
        .ok ({ tx with permissions := tx.permissions ++ [Permission.BeforeCreate env q] },
          Permission.BeforeCreate env q) := by
      simp only [createPermission, hcreate, hany]
      rfl
    unfold seedPermissions
    rw [hfirst]
    simp only
    rw [hcr]
    simp only
    have := ih (done ++ [q]) { tx with permissions := tx.permissions ++ [Permission.BeforeCreate env q] }
      (fun x hx => hzero x (List.mem_cons_of_mem _ hx))
      (by
        rw [List.append_assoc, List.singleton_append, List.map_append, List.map_cons,
          List.nodup_append]
        exact hnames)
      (by
        rw [List.append_assoc, List.singleton_append, List.map_append, List.map_cons,
          List.nodup_append]
        exact hids)
      (by
        intro x hx
        rcases List.mem_append.1 hx with hx | hx
        · exact hdone x hx
        · rw [List.mem_singleton.1 hx]; exact hq0)
      (by simp [htx])
    rw [this]
    simp

theorem HashPassword_defaultAdminPassword (T : UnicodeTables) (B : Bcrypt) (hash : GoString)
    (hB : B.GenerateFromPassword defaultAdminPassword Password.bcryptCost = .ok hash) :
    Password.HashPassword T B defaultAdminPassword = (hash, none) := by
  simp [Password.HashPassword, ValidatePassword_defaultAdminPassword, hB]

/-- The first seeding of the empty store on a quiet database: the store it
commits. -/
theorem seedInitialData_empty (T : UnicodeTables) (B : Bcrypt) (env : Env) (hash : GoString)
    (hB : B.GenerateFromPassword defaultAdminPassword Password.bcryptCost = .ok hash)
    (hq : env.quiet)
    (hperm : (catalog.map (env.newUUID .permissions)).Nodup)
    (hrole : env.newUUID .roles "admin" ≠ env.newUUID .roles "user") :
    seedInitialData T B env Store.empty =
      (⟨permissions.map (Permission.BeforeCreate env),
        [adminRole.BeforeCreate env, userRole.BeforeCreate env],
        [(adminUser hash).BeforeCreate env],
        (permissions.map (Permission.BeforeCreate env)).map
          (fun p => ((adminRole.BeforeCreate env).ID, p.ID)),
        [(((adminUser hash).BeforeCreate env).ID, (adminRole.BeforeCreate env).ID)]⟩, none) := by
  have h1 := seedPermissions_fresh env hq permissions [] Store.empty (by decide) (by decide)
    (by simpa [catalog, List.map_map, Function.comp_def] using hperm) (by simp) rfl
  obtain ⟨hbegin, hcommit, hlook, hcreate, hfind, hrep⟩ := hq
  have hdel : (permissions.map (Permission.BeforeCreate env)).filter (fun p => !p.deleted) =
      permissions.map (Permission.BeforeCreate env) := by
    rw [List.filter_eq_self]
    intro p hp
    obtain ⟨q, hq, rfl⟩ := List.mem_map.1 hp
    rw [permission_BeforeCreate_deleted]
    have : ∀ q ∈ permissions, (!q.deleted) = true := by decide
    exact this q hq
  have a1 : adminRole.Name = "admin" := rfl
  have a2 : (adminRole.BeforeCreate env).Name = "admin" := rfl
  have a3 : (adminRole.BeforeCreate env).deleted = false := rfl
  have u1 : userRole.Name = "user" := rfl
  have u2 : (userRole.BeforeCreate env).Name = "user" := rfl
  have au : ¬ (adminRole.BeforeCreate env).ID = (userRole.BeforeCreate env).ID := hrole
  unfold seedInitialData
  rw [HashPassword_defaultAdminPassword T B hash hB]
  simp only [Transaction, hbegin, hcommit, seedTransaction, List.nil_append] at h1 ⊢
  rw [h1]
  simp [seedAdminRole, seedUserRole, seedAdminPermissions, seedAdminUser, seedAdminUserRole,
    firstRole, firstUser, createRole, createUser, findPermissions, replacePermissions,
    replaceRoles, hlook, hcreate, hfind, hrep, Store.empty, hdel, a1, a2, a3, u1, u2, au]

/-- Seeding again the store that the first seeding of the empty store
committed: every lookup finds its row, and the store stays as it is. -/
theorem seedInitialData_again (T : UnicodeTables) (B : Bcrypt) (env env' : Env)
    (hash hash' : GoString)
    (hB : B.GenerateFromPassword defaultAdminPassword Password.bcryptCost = .ok hash')
    (hq : env'.quiet) (db : Store)
    (hdb : db = ⟨permissions.map (Permission.BeforeCreate env),
        [adminRole.BeforeCreate env, userRole.BeforeCreate env],
        [(adminUser hash).BeforeCreate env],
        (permissions.map (Permission.BeforeCreate env)).map
          (fun p => ((adminRole.BeforeCreate env).ID, p.ID)),
        [(((adminUser hash).BeforeCreate env).ID, (adminRole.BeforeCreate env).ID)]⟩) :
    seedInitialData T B env' db = (db, none) := by
  obtain ⟨hbegin, hcommit, hlook, hcreate, hfind, hrep⟩ := hq
  have hall : ∀ q ∈ permissions, (!q.deleted) = true := by decide
  have h1 : seedPermissions env' permissions db = .ok db := by
    apply seedPermissions_present
    intro q hq
    refine ⟨hlook _ _, Permission.BeforeCreate env q, ?_, ?_, permission_BeforeCreate_Name env q⟩
    · rw [hdb]
      exact List.mem_map.2 ⟨q, hq, rfl⟩
    · rw [permission_BeforeCreate_deleted]
      simpa using hall q hq
  have hdel : (permissions.map (Permission.BeforeCreate env)).filter (fun p => !p.deleted) =
      permissions.map (Permission.BeforeCreate env) := by
    rw [List.filter_eq_self]
    intro p hp
    obtain ⟨q, hq, rfl⟩ := List.mem_map.1 hp
    rw [permission_BeforeCreate_deleted]
    exact hall q hq
  have hjoin : ((permissions.map (Permission.BeforeCreate env)).map
      (fun p => ((adminRole.BeforeCreate env).ID, p.ID))).filter
        (fun rp => rp.1 != (adminRole.BeforeCreate env).ID) = [] := by
    rw [List.filter_eq_nil_iff]
    intro rp hrp
    obtain ⟨p, -, rfl⟩ := List.mem_map.1 hrp
    simp
  have a1 : adminRole.Name = "admin" := rfl
  have a2 : (adminRole.BeforeCreate env).Name = "admin" := rfl
  have a3 : (adminRole.BeforeCreate env).deleted = false := rfl
  have u1 : userRole.Name = "user" := rfl
  have u2 : (userRole.BeforeCreate env).Name = "user" := rfl
  have u3 : (userRole.BeforeCreate env).deleted = false := rfl
  have x1 : ((adminUser hash).BeforeCreate env).Email = (adminUser hash').Email := rfl
  have x2 : ((adminUser hash).BeforeCreate env).deleted = false := rfl
  unfold seedInitialData
  rw [HashPassword_defaultAdminPassword T B hash' hB]
  simp only [Transaction, hbegin, hcommit, seedTransaction]
  rw [h1]
  subst hdb
  simp [seedAdminRole, seedUserRole, seedAdminPermissions, seedAdminUser, seedAdminUserRole,
    firstRole, firstUser, findPermissions, replacePermissions,
    replaceRoles, hlook, hfind, hrep, hdel, hjoin, a1, a2, a3, u1, u2, u3, x1, x2]

/-- C9: starting from the empty store, on a database where every statement
goes through, with a hashing primitive that delivers and pairwise distinct
fresh identifiers, `seedInitialData` succeeds twice in succession, and the
second run leaves the numbers of permission, role and user rows (nine, two and
one) as the first run left them; it leaves the whole store as it was. -/
theorem seedInitialData_idempotent (T : UnicodeTables) (B₁ B₂ : Bcrypt) (env₁ env₂ : Env)
    (hash₁ hash₂ : GoString)
    (hB₁ : B₁.GenerateFromPassword defaultAdminPassword Password.bcryptCost = .ok hash₁)
    (hB₂ : B₂.GenerateFromPassword defaultAdminPassword Password.bcryptCost = .ok hash₂)
    (hq₁ : env₁.quiet) (hq₂ : env₂.quiet)
    (hperm : (catalog.map (env₁.newUUID .permissions)).Nodup)
    (hrole : env₁.newUUID .roles "admin" ≠ env₁.newUUID .roles "user") :
    ∃ db₁ db₂, seedInitialData T B₁ env₁ Store.empty = (db₁, none) ∧
      seedInitialData T B₂ env₂ db₁ = (db₂, none) ∧
      db₂.permissions.length = db₁.permissions.length ∧
      db₂.roles.length = db₁.roles.length ∧ db₂.users.length = db₁.users.length ∧
      db₁.permissions.length = 9 ∧ db₁.roles.length = 2 ∧ db₁.users.length = 1 ∧
      db₂ = db₁ := by
  refine ⟨_, _, seedInitialData_empty T B₁ env₁ hash₁ hB₁ hq₁ hperm hrole,
    seedInitialData_again T B₂ env₁ env₂ hash₁ hash₂ hB₂ hq₂ _ rfl, rfl, rfl, rfl, ?_, rfl, rfl,
    rfl⟩
  simp [permissions]

theorem quietEnv_quiet : quietEnv.quiet :=
  ⟨rfl, rfl, fun _ _ => rfl, fun _ _ => rfl, rfl, fun _ => rfl⟩

/-- C9, witness: two seedings of the empty store on `quietEnv`. -/
theorem seedInitialData_idempotent_witness :
    quietEnv.quiet ∧ (catalog.map (quietEnv.newUUID .permissions)).Nodup ∧
      quietEnv.newUUID .roles "admin" ≠ quietEnv.newUUID .roles "user" ∧
      ∃ db₁ db₂,
        seedInitialData Password.latin1Letters fixedBcrypt quietEnv Store.empty = (db₁, none) ∧
        seedInitialData Password.latin1Letters fixedBcrypt quietEnv db₁ = (db₂, none) ∧
        db₂.permissions.length = db₁.permissions.length ∧
        db₂.roles.length = db₁.roles.length ∧ db₂.users.length = db₁.users.length ∧
        db₁.permissions.length = 9 ∧ db₁.roles.length = 2 ∧ db₁.users.length = 1 ∧
        db₂ = db₁ :=
  ⟨quietEnv_quiet, by decide, by decide,
    seedInitialData_idempotent Password.latin1Letters fixedBcrypt fixedBcrypt quietEnv quietEnv
      _ _ rfl rfl quietEnv_quiet quietEnv_quiet (by decide) (by decide)⟩

end Database

namespace Password

/-! ## The first byte of a generated password -/

/-- The swap index `SecureRandom(i + 1)` of the shuffle is at least 1 whenever
`i` is. -/
theorem SecureRandom_succ_pos (i : Nat) (hi : 1 ≤ i) :
    1 ≤ SecureRandom ((i : Int) + 1) := by
  have hcast : (i : Int) + 1 = ((i + 1 : Nat) : Int) := by push_cast; ring
  rw [hcast, SecureRandom_natCast]
  have : 1 ≤ (i + 1) / 2 := by omega
  exact_mod_cast this

/-- The shuffle loop leaves the cell at index 0 alone. -/
theorem shuffleFrom_head (i : Nat) (s s' : GoString) (hi : i < s.length)
    (h : shuffleFrom i s = some s') : s'[0]? = s[0]? := by
  induction i generalizing s with
  | zero =>
    injection h with h
    rw [h]
  | succ i ih =>
    have hj : (i + 1 + 1) / 2 < s.length := by omega
    have hcast : ((i + 1 : Nat) : Int) + 1 = ((i + 1 + 1 : Nat) : Int) := by push_cast; ring
    rw [shuffleFrom, hcast, SecureRandom_natCast, index_natCast, index_natCast,
      List.getElem?_eq_getElem hj, List.getElem?_eq_getElem hi] at h
    simp only [Option.bind_eq_bind, Option.some_bind] at h
    rw [assign_natCast _ _ _ hi] at h
    simp only [Option.some_bind] at h
    rw [assign_natCast _ _ _ (by simpa using hj)] at h
    simp only [Option.some_bind] at h
    rw [ih _ (by simp; omega) h, List.getElem?_set, List.getElem?_set]
    have h1 : ¬ (i + 1 + 1) / 2 = 0 := by omega
    have h2 : ¬ i + 1 = 0 := by omega
    rw [if_neg h1, if_neg h2]

/-- The function `GenerateRandomPassword` returns the shuffle of `N`, `n`,
`5`, `=` followed by as many `s` as the clamped length leaves room for. -/
theorem GenerateRandomPassword_eq_shuffle (n : Int) :
    ∃ m : Nat, clampLength n = ((m + 8 : Nat) : Int) ∧
      GenerateRandomPassword n =
        (ShuffleBytes ([78, 110, 53, 61] ++ List.replicate (m + 4) 115)).map
          (fun password => (password, none)) := by
  obtain ⟨m, hm, -⟩ := clampLength_spec n
  refine ⟨m, hm, ?_⟩
  have hfill : fillFrom (m + 4) 4 ([78, 110, 53, 61] ++ List.replicate (m + 4) 0) =
      some ([78, 110, 53, 61] ++ List.replicate (m + 4) 115) :=
    fillFrom_spec (m + 4) [78, 110, 53, 61]
  have hu : index upperChars (SecureRandom upperChars.length) = some 78 := by decide
  have hl : index lowerChars (SecureRandom lowerChars.length) = some 110 := by decide
  have hn : index numberChars (SecureRandom numberChars.length) = some 53 := by decide
  have hp : index specialChars (SecureRandom specialChars.length) = some 61 := by decide
  have hrep : List.replicate (m + 8) 0 = 0 :: 0 :: 0 :: 0 :: List.replicate (m + 4) 0 := by
    simp [List.replicate_succ]
  have h0 : assign (0 :: 0 :: 0 :: 0 :: List.replicate (m + 4) 0) 0 78 =
      some (78 :: 0 :: 0 :: 0 :: List.replicate (m + 4) 0) := by simp [assign]
  have h1 : assign (78 :: 0 :: 0 :: 0 :: List.replicate (m + 4) 0) 1 110 =
      some (78 :: 110 :: 0 :: 0 :: List.replicate (m + 4) 0) := by simp [assign]
  have h2 : assign (78 :: 110 :: 0 :: 0 :: List.replicate (m + 4) 0) 2 53 =
      some (78 :: 110 :: 53 :: 0 :: List.replicate (m + 4) 0) := by simp [assign]
  have h3 : assign (78 :: 110 :: 53 :: 0 :: List.replicate (m + 4) 0) 3 61 =
      some ([78, 110, 53, 61] ++ List.replicate (m + 4) 0) := by simp [assign]
  have hk : m + 8 - 4 = m + 4 := by omega
  unfold GenerateRandomPassword
  simp only [hm, Int.toNat_ofNat, hu, hl, hn, hp, hrep, h0, h1, h2, h3, hk,
    Option.bind_eq_bind, Option.some_bind, Option.pure_def]
  rw [hfill]
  simp only [Option.some_bind]
  cases ShuffleBytes ([78, 110, 53, 61] ++ List.replicate (m + 4) 115) <;> rfl

/-- C11: `SecureRandom(max)` is `max / 2`; the swap index `SecureRandom(i + 1)`
of `ShuffleBytes` is at least 1 for every `i` of at least 1; and for every
length `n` the string `GenerateRandomPassword n` returns starts with the byte
78, the uppercase letter `N`, which is `upperChars[SecureRandom(26)]`. -/
theorem GenerateRandomPassword_starts_with_N (T : UnicodeTables) (n : Int) :
    (∀ max : Int, SecureRandom max = Int.tdiv max 2) ∧
      (∀ i : Nat, 1 ≤ i → 1 ≤ SecureRandom ((i : Int) + 1)) ∧
      index upperChars (SecureRandom upperChars.length) = some (Char.toNat 'N') ∧
      ∃ s : GoString, GenerateRandomPassword n = some (s, none) ∧
        s[0]? = some (Char.toNat 'N') ∧ IsUpper T (Char.toNat 'N') = true := by
  refine ⟨fun _ => rfl, SecureRandom_succ_pos, by decide, ?_⟩
  obtain ⟨m, -, hgen⟩ := GenerateRandomPassword_eq_shuffle n
  obtain ⟨s, hs, -, -⟩ :=
    ShuffleBytes_spec ([78, 110, 53, 61] ++ List.replicate (m + 4) 115) (by simp)
  refine ⟨s, ?_, ?_, ?_⟩
  · rw [hgen, hs]
    rfl
  · have := shuffleFrom_head _ _ s (by simp) hs
    rw [this]
    rfl
  · have : Char.toNat 'N' = 78 := by decide
    rw [this]
    simp [IsUpper]

end Password
